/-
  Verification of the validation-guided repair engine of the marketing-copy
  generator: structure extraction, deterministic rule validation, repair-scope
  resolution, surgical field replacement, and the attempt-orchestration loop.

  JavaScript strings are modelled as `List Char` (Unicode code points). All
  inputs exercised here are BMP-only, where JS UTF-16 code-unit indices agree
  with code-point indices; where the distinction matters (String.length vs.
  Array.from) we count UTF-16 code units explicitly via `utf16Len`.

  JS regular expressions are hand-compiled into matcher combinators.  A
  matcher returns the list of possible remainders after matching at the start
  of the input, ordered in JS backtracking order (greedy quantifiers longest
  first, alternatives left to right), so `head?` is the JS match and
  emptiness of the list at every start position decides `RegExp.test`.
-/
import Mathlib

namespace SW

/-! ### Character classes (JS semantics) -/

/-- JS `\s` / `String.trim` whitespace class (the code points that occur in
    practice plus the standard Unicode space separators). -/
def isSpaceJS (c : Char) : Bool :=
  c = ' ' || c = '\t' || c = '\n' || c = '\r' ||
  c = '\x0b' || c = '\x0c' ||
  c = ' ' || c.val = 0x1680 ||
  (0x2000 ≤ c.val && c.val ≤ 0x200A) ||
  c.val = 0x2028 || c.val = 0x2029 || c.val = 0x202F ||
  c.val = 0x205F || c.val = 0x3000 || c.val = 0xFEFF

/-- JS `\d`. -/
def isDigitJS (c : Char) : Bool := '0' ≤ c && c ≤ '9'

/-- JS `\w` (ASCII only — Cyrillic letters are NOT word characters in JS). -/
def isWordJS (c : Char) : Bool :=
  ('a' ≤ c && c ≤ 'z') || ('A' ≤ c && c ≤ 'Z') || isDigitJS c || c = '_'

/-- `String.prototype.toLowerCase` restricted to ASCII and Cyrillic (the only
    cased characters appearing in this code base). -/
def lowerChar (c : Char) : Char :=
  if 'A' ≤ c && c ≤ 'Z' then Char.ofNat (c.toNat + 32)
  else if 'А' ≤ c && c ≤ 'Я' then Char.ofNat (c.toNat + 0x20)
  else if c = 'Ё' then 'ё'
  else c

def lowerStr (l : List Char) : List Char := l.map lowerChar

/-- Lowercase Cyrillic а..я or ё (JS class `[а-яё]`). -/
def isCyrLower (c : Char) : Bool := ('а' ≤ c && c ≤ 'я') || c = 'ё'

/-! ### List-of-char string operations -/

/-- `String.prototype.trim`. -/
def trimJS (l : List Char) : List Char :=
  ((l.dropWhile isSpaceJS).reverse.dropWhile isSpaceJS).reverse

/-- `String.prototype.includes` (hay, needle). -/
def hasSubstr (hay needle : List Char) : Bool :=
  if needle.isPrefixOf hay then true
  else match hay with
    | [] => false
    | _ :: t => hasSubstr t needle

/-- `String.prototype.indexOf` (hay, needle). -/
def indexOfSub (hay needle : List Char) : Option Nat :=
  go hay 0
where
  go : List Char → Nat → Option Nat
    | h, i =>
      if needle.isPrefixOf h then some i
      else match h with
        | [] => none
        | _ :: t => go t (i + 1)

/-- `s.substring(a, b)` with `a ≤ b` already arranged by the caller
    (the source always passes `Math.max(0,·)` / `Math.min(len,·)` bounds). -/
def substringJS (l : List Char) (a b : Nat) : List Char :=
  (l.take b).drop a

/-- `content.split('\n')`. -/
def splitNL : List Char → List (List Char)
  | [] => [[]]
  | c :: r =>
    let rest := splitNL r
    if c = '\n' then [] :: rest
    else match rest with
      | h :: t => (c :: h) :: t
      | [] => [[c]]

/-- `lines.join('\n')`. -/
def joinNL : List (List Char) → List Char
  | [] => []
  | [l] => l
  | l :: rest => l ++ '\n' :: joinNL rest

/-- UTF-16 length of a code-point string (JS `String.prototype.length`). -/
def utf16Len (l : List Char) : Nat :=
  (l.map (fun c => if c.val ≥ 0x10000 then 2 else 1)).sum

/-- Code-point length (JS `Array.from(s).length`). -/
def cpLen (l : List Char) : Nat := l.length

/-! ### Matcher combinators (hand-compiled JS regexes)

    `M` maps an input to the remainders after all possible matches at the
    start of input, in JS backtracking order. -/

def M := List Char → List (List Char)

def mEps : M := fun l => [l]

/-- Single character from a class. -/
def mCls (p : Char → Bool) : M := fun l =>
  match l with
  | [] => []
  | c :: r => if p c then [r] else []

/-- Literal string. -/
def mLit (s : List Char) : M := fun l =>
  if s.isPrefixOf l then [l.drop s.length] else []

def mSeq (a b : M) : M := fun l => (a l).flatMap b

def mAlt (a b : M) : M := fun l => a l ++ b l

def mSeqs : List M → M
  | [] => mEps
  | [m] => m
  | m :: rest => mSeq m (mSeqs rest)

def mAlts : List M → M
  | [] => fun _ => []
  | [m] => m
  | m :: rest => mAlt m (mAlts rest)

/-- `x?` (greedy). -/
def mOpt (a : M) : M := fun l => a l ++ [l]

/-- Remainders after consuming zero or more class characters, longest first
    (greedy `p*`). -/
def starRems (p : Char → Bool) : List Char → List (List Char)
  | [] => [[]]
  | c :: r => (if p c then starRems p r else []) ++ [c :: r]

/-- `p*` (greedy). -/
def mStar (p : Char → Bool) : M := fun l => starRems p l

/-- `p+` (greedy). -/
def mPlus (p : Char → Bool) : M := mSeq (mCls p) (mStar p)

/-- Up to `max` class characters, longest first (greedy `p{0,max}`). -/
def cntRems (p : Char → Bool) (max : Nat) : List Char → List (List Char)
  | l =>
    match max, l with
    | 0, l => [l]
    | _ + 1, [] => [[]]
    | m + 1, c :: r => (if p c then cntRems p m r else []) ++ [c :: r]

/-- `p{0,max}` (greedy). -/
def mCnt (p : Char → Bool) (max : Nat) : M := fun l => cntRems p max l

/-- Exactly `n` class characters. -/
def mExact (p : Char → Bool) : Nat → M
  | 0 => mEps
  | n + 1 => mSeq (mCls p) (mExact p n)

/-- Negative lookahead `(?!a)`. -/
def mNla (a : M) : M := fun l => if (a l).isEmpty then [l] else []

/-- Anchored test `/^.../.test l`. -/
def mTestAt (a : M) (l : List Char) : Bool := !(a l).isEmpty

/-- Unanchored `test` (match allowed at any position, including end). -/
def mSearch (a : M) : List Char → Bool
  | [] => !(a []).isEmpty
  | c :: r => !(a (c :: r)).isEmpty || mSearch a (r)

/-- Leftmost match as (index, length); among matches at the leftmost viable
    position, JS backtracking picks our head. -/
def mFindFrom (a : M) (i : Nat) : List Char → Option (Nat × Nat)
  | [] => if (a []).isEmpty then none else some (i, 0)
  | c :: r =>
    match (a (c :: r)).head? with
    | some rem => some (i, (c :: r).length - rem.length)
    | none => mFindFrom a (i + 1) r

def mFind (a : M) (l : List Char) : Option (Nat × Nat) := mFindFrom a 0 l

/-- `text.match(re)?.[0]` for a case-insensitive regex: search the lowered
    text, slice the original (lowering is length-preserving). -/
def mMatch0 (a : M) (text : List Char) : Option (List Char) :=
  match mFind a (lowerStr text) with
  | some (i, n) => some ((text.drop i).take n)
  | none => none

/-- JS `\b` word boundary before position `i` followed by literal `lit`
    (searched over the lowered text; `\w` is ASCII-only). -/
def searchBoundedLit (lit : List Char) (text : List Char) : Bool :=
  go none (lowerStr text)
where
  go : Option Char → List Char → Bool
    | _, [] => false
    | prev, c :: r =>
      let boundary := (match prev with
        | none => isWordJS c
        | some p => isWordJS p != isWordJS c)
      (boundary && lit.isPrefixOf (c :: r)) || go (some c) r

/-! ### Violation model -/

inductive Severity where
  | ERROR
  | WARNING
  | INFO
deriving DecidableEq, Repr

structure Violation where
  code : String
  severity : Severity
  message : String
  location : String
  evidence : String
  suggestedFix : Option String := none
deriving DecidableEq, Repr

/-- Number of ERROR-severity violations in a list. -/
def errCount (vs : List Violation) : Nat :=
  (vs.filter (fun v => v.severity == Severity.ERROR)).length

/-- The multiset of codes. -/
def codesOf (vs : List Violation) : List String := vs.map (·.code)

def countCode (c : String) (vs : List Violation) : Nat :=
  (vs.filter (fun v => v.code == c)).length

end SW

namespace SW

/-! ## Email validator (validator.js)

    Faithful embedding of `extract3Grams`, `checkForbiddenWords`,
    `checkBannedCliches`, `checkGeographyLabels`, `checkCharLimit`,
    `checkEmojis`, `parseEmailOutput`, `pushVariants` and `validateEmail`. -/

/-- JS `.` (matches anything but line terminators). -/
def notNL (c : Char) : Bool :=
  !(c = '\n' || c = '\r' || c.val = 0x2028 || c.val = 0x2029)

/-- Punctuation class of `extract3Grams`:
    `[.,!?;:—–\-«»"""''\(\)\[\]]`. -/
def isGramPunct (c : Char) : Bool :=
  c = '.' || c = ',' || c = '!' || c = '?' || c = ';' || c = ':' ||
  c = '—' || c = '–' || c = '-' || c = '«' || c = '»' || c = '"' ||
  c = '\'' || c = '(' || c = ')' || c = '[' || c = ']'

/-- Split on whitespace runs, dropping empty words: the composition of
    `.replace(/\s+/g, ' ').trim().split(' ').filter(w => w.length > 0)`. -/
def splitWords : List Char → List (List Char)
  | [] => []
  | c :: r =>
    if isSpaceJS c then splitWords r
    else
      match splitWords r with
      | [] => [[c]]
      | w :: ws =>
        match r with
        | [] => [[c]]
        | c' :: _ => if isSpaceJS c' then [c] :: w :: ws else (c :: w) :: ws

/-- All consecutive-3-word grams, in order. -/
def gramsSeq : List (List Char) → List (List Char)
  | w0 :: w1 :: w2 :: rest =>
    (w0 ++ ' ' :: (w1 ++ ' ' :: w2)) :: gramsSeq (w1 :: w2 :: rest)
  | _ => []

/-- First-occurrence deduplication (JS `Set` insertion order). -/
def dedupFirstAux {α : Type} [BEq α] (seen : List α) : List α → List α
  | [] => []
  | x :: r =>
    if seen.contains x then dedupFirstAux seen r
    else x :: dedupFirstAux (x :: seen) r

def dedupFirst {α : Type} [BEq α] (l : List α) : List α := dedupFirstAux [] l

/-- `extract3Grams` (returns the set as a first-insertion-ordered list). -/
def extract3Grams (text : List Char) : List (List Char) :=
  if text.isEmpty then []
  else
    let normalized := (lowerStr text).map (fun c => if isGramPunct c then ' ' else c)
    dedupFirst (gramsSeq (splitWords normalized))

/-! ### checkForbiddenWords -/

def wsPlus : M := mPlus isSpaceJS
def wsStar : M := mStar isSpaceJS

/-- `/мероприятие\s+с\s+дегустацией\s+вин/i` (run over lowered text). -/
def reMeropriyatie : M :=
  mSeqs [mLit "мероприятие".data, wsPlus, mLit "с".data, wsPlus,
         mLit "дегустацией".data, wsPlus, mLit "вин".data]

/-- `/в\s+винотек/i`. -/
def reVVinotek : M := mSeqs [mLit "в".data, wsPlus, mLit "винотек".data]

/-- `/покупк|покупа[тюе]/i`. -/
def rePokupka : M :=
  mAlt (mLit "покупк".data)
       (mSeq (mLit "покупа".data) (mCls (fun c => c = 'т' || c = 'ю' || c = 'е')))

/-- `/[^.]*букет[^.]*/i`. -/
def reBuketEv : M :=
  mSeqs [mStar (· ≠ '.'), mLit "букет".data, mStar (· ≠ '.')]

/-- `/[^.]*послевкус[^.]*/i`. -/
def rePoslevkusEv : M :=
  mSeqs [mStar (· ≠ '.'), mLit "послевкус".data, mStar (· ≠ '.')]

/-- The "дегустация" block of checkForbiddenWords. -/
def degustatsiyaCheck (text : List Char) (location : String) : List Violation :=
  let lowerText := lowerStr text
  if hasSubstr lowerText "дегустац".data then
    if !mSearch reMeropriyatie lowerText then
      let idx := (indexOfSub lowerText "дегустац".data).getD 0
      [{ code := "FORBIDDEN_DEGUSTATSIYA", severity := .ERROR,
         message := "Слово \"дегустация\" запрещено, кроме фразы \"мероприятие с дегустацией вин\"",
         location, evidence := ⟨substringJS text idx (idx + 50)⟩,
         suggestedFix := some "Используйте: \"винный вечер\", \"вечер с винами\", \"винное мероприятие\"" }]
    else []
  else []

/-- The "купить" block of checkForbiddenWords: allowed only with
    "в винотеке" inside the window around the first occurrence of "купи". -/
def kupitCheck (text : List Char) (location : String) : List Violation :=
  let lowerText := lowerStr text
  if hasSubstr lowerText "купи".data then
    let idx := (indexOfSub lowerText "купи".data).getD 0
    let context := substringJS text (idx - 20) (idx + 30)
    if !mSearch reVVinotek (lowerStr context) then
      [{ code := "FORBIDDEN_KUPIT", severity := .ERROR,
         message := "Слово \"купить\" запрещено, кроме \"купить в винотеке\"",
         location, evidence := ⟨context⟩,
         suggestedFix := some "Используйте: \"заказать\", \"выбрать\", \"собрать корзину\"" }]
    else []
  else []

/-- The "покупка/покупать" block of checkForbiddenWords. -/
def pokupkaCheck (text : List Char) (location : String) : List Violation :=
  let lowerText := lowerStr text
  match mFind rePokupka lowerText with
  | some (startIdx, _) =>
    let context := substringJS text (startIdx - 20) (startIdx + 40)
    if !mSearch reVVinotek (lowerStr context) then
      [{ code := "FORBIDDEN_POKUPKA", severity := .ERROR,
         message := "Слова \"покупка/покупать\" запрещены, кроме случаев с \"в винотеке\"",
         location, evidence := ⟨context⟩,
         suggestedFix := some "Переформулируйте без использования слова \"покупка\"" }]
    else []
  | none => []

/-- The "букет" block of checkForbiddenWords. -/
def buketCheck (text : List Char) (location : String) : List Violation :=
  if searchBoundedLit "букет".data text then
    [{ code := "FORBIDDEN_BUKET", severity := .ERROR,
       message := "Слово \"букет\" запрещено", location,
       evidence := ⟨(mMatch0 reBuketEv text).getD (text.take 50)⟩,
       suggestedFix := some "Замените на \"профиль\" или конкретные ароматы/вкусы" }]
  else []

/-- The "послевкусие" block of checkForbiddenWords. -/
def poslevkusieCheck (text : List Char) (location : String) : List Violation :=
  if hasSubstr (lowerStr text) "послевкус".data then
    [{ code := "FORBIDDEN_POSLEVKUSIE", severity := .ERROR,
       message := "Слово \"послевкусие\" запрещено", location,
       evidence := ⟨(mMatch0 rePoslevkusEv text).getD (text.take 50)⟩,
       suggestedFix := some "Замените на \"финиш\"" }]
  else []

def checkForbiddenWords (text : List Char) (location : String) : List Violation :=
  if text.isEmpty then []
  else
    degustatsiyaCheck text location ++
    kupitCheck text location ++
    pokupkaCheck text location ++
    buketCheck text location ++
    poslevkusieCheck text location

/-! ### checkBannedCliches -/

/-- `/с\s+характером(?!\s+[—:].{3,})/i`. -/
def reSharakterom : M :=
  mSeqs [mLit "с".data, wsPlus, mLit "характером".data,
         mNla (mSeqs [wsPlus, mCls (fun c => c = '—' || c = ':'),
                      mExact notNL 3, mStar notNL])]

def bannedClichesList : List (M × String) :=
  [ (reSharakterom, "\"с характером\" - запрещено без конкретного объяснения"),
    (mSeqs [mLit "для".data, wsPlus, mLit "истинных".data, wsPlus,
            mLit "ценителей".data, wsPlus, mLit "и".data, wsPlus,
            mLit "особых".data, wsPlus, mLit "моментов".data],
     "Штамп: \"для истинных ценителей и особых моментов\""),
    (mSeqs [mLit "отличный".data, wsPlus, mLit "повод".data],
     "Штамп: \"отличный повод\""),
    (mSeqs [mLit "никого".data, wsPlus, mLit "не".data, wsPlus,
            mLit "оставит".data, wsPlus, mLit "равнодушным".data],
     "Штамп: \"Никого не оставит равнодушным\""),
    (mSeqs [mLit "икона".data, wsPlus, mLit "стиля".data],
     "Штамп: \"Икона стиля\""),
    (mSeqs [mLit "лето".data, mOpt (mCls (· = ',')), wsPlus,
            mLit "которое".data, wsPlus, mLit "хочется".data, wsPlus,
            mLit "пить".data],
     "Штамп: \"Лето, которое хочется пить\""),
    (mSeqs [mLit "уютный".data, wsPlus, mLit "вечер".data, wsPlus,
            mLit "под".data, wsPlus, mLit "пледом".data],
     "Штамп: \"уютный вечер под пледом\""),
    (mSeqs [mLit "для".data, wsPlus, mLit "душевных".data, wsPlus,
            mLit "разговоров".data],
     "Штамп: \"Для душевных разговоров\""),
    (mSeqs [mLit "со".data, wsPlus, mLit "смыслом".data],
     "Штамп: \"со смыслом\""),
    (mSeqs [mLit "больше".data, mOpt (mCls (· = ',')), wsPlus,
            mLit "чем".data, wsPlus, mLit "просто".data, wsPlus,
            mLit "вино".data],
     "Штамп: \"Больше, чем просто вино\"") ]

def checkBannedCliches (text : List Char) (location : String) : List Violation :=
  if text.isEmpty then []
  else
    bannedClichesList.flatMap (fun cliche =>
      if mSearch cliche.1 (lowerStr text) then
        [{ code := "BANNED_CLICHE", severity := .ERROR,
           message := cliche.2, location,
           evidence := ⟨(mMatch0 cliche.1 text).getD []⟩,
           suggestedFix := some "Переформулируйте оригинально" }]
      else [])

/-! ### checkGeographyLabels -/

def geoRegions : List String :=
  ["Пьемонт", "Тоскан", "Бордо", "Бургунд", "Испан", "Италь", "Франц",
   "Португал", "Чили", "Аргентин", "Австрали", "Новая Зеландия"]

/-- The five forbidden patterns built for a region stem (run over lowered
    text, region stem lowered). -/
def geoPatterns (region : String) : List M :=
  let r : M := mLit (lowerStr region.data)
  [ mSeqs [mAlts [mSeq (mLit "пробу".data) (mCls (fun c => c = 'е' || c = 'м')),
                  mSeq (mLit "попробу".data) (mCls (fun c => c = 'е' || c = 'м')),
                  mSeq (mLit "дегуст".data) (mCls (fun c => c = 'и' || c = 'е'))],
           wsPlus, r],
    mSeqs [mLit "вечер".data, wsPlus, r],
    mSeqs [r, wsPlus, mLit "в".data, wsPlus, mLit "бокале".data],
    mSeqs [mAlts [mLit "немного".data, mLit "глоток".data, mLit "вкус".data,
                  mSeq (mLit "капл".data) (mCls (fun c => c = 'я' || c = 'а'))],
           wsPlus, r],
    mSeqs [r,
           mNla (mSeqs [mCnt notNL 40, mLit "вин".data]),
           mNla (mSeqs [mCnt notNL 10,
                        mAlt (mLit "ск".data) (mLit "н".data),
                        mCls (fun c => c = 'и' || c = 'о' || c = 'е' || c = 'а')]),
           wsPlus,
           mAlts [mSeqs [mLit "на".data, wsPlus, mLit "столе".data],
                  mSeqs [mLit "для".data, wsPlus, mLit "вас".data],
                  mLit "ждет".data]] ]

def checkGeographyLabels (text : List Char) (location : String) : List Violation :=
  if text.isEmpty then []
  else
    geoRegions.flatMap (fun region =>
      (geoPatterns region).flatMap (fun pattern =>
        if mSearch pattern (lowerStr text) then
          [{ code := "GEOGRAPHY_LABEL_MISUSE", severity := .ERROR,
             message := "Регион \"" ++ region ++ "\" используется как самостоятельный \"ярлык\" без упоминания вина",
             location, evidence := ⟨(mMatch0 pattern text).getD []⟩,
             suggestedFix := some ("Используйте: \"вина " ++ region ++ "а\" или \"" ++
               String.mk (lowerStr region.data) ++ "ские вина\"") }]
        else []))

/-! ### checkCharLimit / checkEmojis -/

def checkCharLimit (text : List Char) (limit : Nat) (location : String) : List Violation :=
  if text.isEmpty then []
  else
    -- const length = Array.from(text).length: code points, emoji count once
    if cpLen text > limit then
      [{ code := "CHAR_LIMIT_EXCEEDED", severity := .ERROR,
         message := "Превышен лимит символов: " ++ toString (cpLen text) ++ " > " ++ toString limit,
         location, evidence := ⟨text⟩,
         suggestedFix := some ("Сократите на " ++ toString (cpLen text - limit) ++ " символов") }]
    else []

/-- The emoji code-point ranges of `checkEmojis`. -/
def isEmojiJS (c : Char) : Bool :=
  (0x1F600 ≤ c.val && c.val ≤ 0x1F64F) || (0x1F300 ≤ c.val && c.val ≤ 0x1F5FF) ||
  (0x1F680 ≤ c.val && c.val ≤ 0x1F6FF) || (0x1F700 ≤ c.val && c.val ≤ 0x1F77F) ||
  (0x1F780 ≤ c.val && c.val ≤ 0x1F7FF) || (0x1F800 ≤ c.val && c.val ≤ 0x1F8FF) ||
  (0x1F900 ≤ c.val && c.val ≤ 0x1F9FF) || (0x1FA00 ≤ c.val && c.val ≤ 0x1FA6F) ||
  (0x1FA70 ≤ c.val && c.val ≤ 0x1FAFF) || (0x2600 ≤ c.val && c.val ≤ 0x26FF) ||
  (0x2700 ≤ c.val && c.val ≤ 0x27BF)

def checkEmojis (text : List Char) (location : String) : List Violation :=
  if text.isEmpty then []
  else if text.any isEmojiJS then
    [{ code := "EMOJI_FORBIDDEN", severity := .ERROR,
       message := "Эмодзи запрещены", location, evidence := ⟨text⟩,
       suggestedFix := some "Удалите все эмодзи" }]
  else []

end SW

namespace SW

/-! ### parseEmailOutput -/

inductive ESection where
  | subject | preheader | banner | bannerTitle | bannerSubtitle
  | intro | introCTA | blockTitle | blockCTA
deriving DecidableEq, Repr

structure EBlock where
  title : List (List Char)
  text : List Char := []
  cta : List (List Char) := []
deriving DecidableEq, Repr

structure EStructure where
  subject : List (List Char) := []
  preheader : List (List Char) := []
  bannerTitle : List (List Char) := []
  bannerSubtitle : List (List Char) := []
  introText : List Char := []
  introCTA : List (List Char) := []
  productHeading : List (List Char) := []
  blocks : List EBlock := []
deriving DecidableEq, Repr

/-- `variants.join(' ')`. -/
def joinSpace : List (List Char) → List Char
  | [] => []
  | [w] => w
  | w :: rest => w ++ ' ' :: joinSpace rest

/-- Replace the last element of a list (JS mutation of the object that was
    just pushed). -/
def modifyLast (f : EBlock → EBlock) : List EBlock → List EBlock
  | [] => []
  | [b] => [f b]
  | b :: rest => b :: modifyLast f rest

/-- `pushVariants(structure, section, variants[, currentBlock])`.
    `withBlock` records whether the call site passed `currentBlock`
    (which, when non-null, is always the most recently pushed block). -/
def pushVariants (st : EStructure) (sec : Option ESection)
    (variants : List (List Char)) (withBlock : Bool) : EStructure :=
  match sec with
  | none => st
  | some .subject => { st with subject := st.subject ++ variants }
  | some .preheader => { st with preheader := st.preheader ++ variants }
  | some .bannerTitle => { st with bannerTitle := st.bannerTitle ++ variants }
  | some .bannerSubtitle => { st with bannerSubtitle := st.bannerSubtitle ++ variants }
  | some .intro => { st with introText := joinSpace variants }
  | some .introCTA => { st with introCTA := st.introCTA ++ variants }
  | some .blockTitle =>
    if withBlock then { st with blocks := modifyLast (fun b => { b with title := b.title ++ variants }) st.blocks }
    else st
  | some .blockCTA =>
    if withBlock then { st with blocks := modifyLast (fun b => { b with cta := b.cta ++ variants }) st.blocks }
    else st
  | some .banner => st  -- no case in the switch: buffered variants are dropped

/-- `/^\d+[.)\):]\s*/` prefix strip (the character class is `{., ), :}`). -/
def stripNumPrefix (l : List Char) : List Char :=
  let ds := l.takeWhile isDigitJS
  if ds.isEmpty then l
  else
    match l.drop ds.length with
    | c :: r => if c = '.' || c = ')' || c = ':' then r.dropWhile isSpaceJS else l
    | [] => l

/-- Anchored case-insensitive prefix test against several keys. -/
def startsAnyCI (keys : List (List Char)) (l : List Char) : Bool :=
  keys.any (fun k => k.isPrefixOf (lowerStr l))

/-- `/^(Заголовок|Title|ЗАГОЛОВОК)(\s+баннера)?\s*[—\-—]/i`. -/
def reBannerTitleHdr : M :=
  mSeqs [mAlt (mLit "заголовок".data) (mLit "title".data),
         mOpt (mSeq wsPlus (mLit "баннера".data)),
         wsStar, mCls (fun c => c = '—' || c = '-')]

/-- `/^(Подзаголовок|Subtitle|ПОДЗАГОЛОВОК)(\s+баннерa)?\s*[—\-—]/i`
    (the subtitle variant of the same pattern). -/
def reBannerSubtitleHdr : M :=
  mSeqs [mAlt (mLit "подзаголовок".data) (mLit "subtitle".data),
         mOpt (mSeq wsPlus (mLit "баннера".data)),
         wsStar, mCls (fun c => c = '—' || c = '-')]

/-- `/^(Кнопка|CTA|КТА)\s*[:：—\-—]/i`. -/
def reCtaHdr : M :=
  mSeqs [mAlts [mLit "кнопка".data, mLit "cta".data, mLit "кта".data],
         wsStar,
         mCls (fun c => c = ':' || c.val = 0xFF1A || c = '—' || c = '-')]

/-- `/^(БЛОК|Блок)\s+\d+/i`. -/
def reBlockHdr : M :=
  mSeqs [mLit "блок".data, wsPlus, mCls isDigitJS]

/-- `/^(\d+[.)\-]|[-•*])\s+/`: on success, returns the variant remainder
    after `.replace(prefix, '')` (the caller applies `.trim()`). -/
def variantRest (l : List Char) : Option (List Char) :=
  let ds := l.takeWhile isDigitJS
  if !ds.isEmpty then
    match l.drop ds.length with
    | c :: r =>
      if (c = '.' || c = ')' || c = '-') &&
         (match r with | c' :: _ => isSpaceJS c' | [] => false) then
        some (r.dropWhile isSpaceJS)
      else none
    | [] => none
  else
    match l with
    | c :: r =>
      if (c = '-' || c = '•' || c = '*') &&
         (match r with | c' :: _ => isSpaceJS c' | [] => false) then
        some (r.dropWhile isSpaceJS)
      else none
    | [] => none

/-- Parser loop state transition for one line (already split). -/
def parseEmailLine (acc : EStructure × Option ESection × List (List Char))
    (rawLine : List Char) : EStructure × Option ESection × List (List Char) :=
  let (st, currentSection, variantBuffer) := acc
  let line := trimJS rawLine
  if line.isEmpty then acc
  else
    let lineNormalized := stripNumPrefix line
    let flush := pushVariants st currentSection variantBuffer false
    if startsAnyCI ["тема".data, "subject".data] lineNormalized then
      (flush, some .subject, [])
    else if startsAnyCI ["прехедер".data, "preheader".data] lineNormalized then
      (flush, some .preheader, [])
    else if startsAnyCI ["главный баннер".data, "banner".data] lineNormalized then
      (flush, some .banner, [])
    else if mTestAt reBannerTitleHdr (lowerStr lineNormalized) then
      (flush, some .bannerTitle, [])
    else if mTestAt reBannerSubtitleHdr (lowerStr lineNormalized) then
      (flush, some .bannerSubtitle, [])
    else if startsAnyCI ["вводный текст".data, "intro".data] lineNormalized then
      (flush, some .intro, [])
    else if mTestAt reCtaHdr (lowerStr lineNormalized) then
      (flush, some .introCTA, [])
    else if mTestAt reBlockHdr (lowerStr lineNormalized) then
      -- flush passes currentBlock, then push a fresh block
      let flushed := pushVariants st currentSection variantBuffer true
      ({ flushed with blocks := flushed.blocks ++ [{ title := [] }] },
       some .blockTitle, [])
    else
      match variantRest line with
      | some rest => (st, currentSection, variantBuffer ++ [trimJS rest])
      | none => acc

/-- `parseEmailOutput` — `null` only for the empty (falsy) input. -/
def parseEmailOutput (output : List Char) : Option EStructure :=
  if output.isEmpty then none
  else
    let step := (splitNL output).foldl parseEmailLine ({}, none, [])
    -- push remaining variants (the final call passes currentBlock)
    some (pushVariants step.1 step.2.1 step.2.2 true)

/-! ### validateEmail -/

structure VariantCounts where
  subject : Nat := 3
  preheader : Nat := 3
  bannerTitle : Nat := 3
  bannerSubtitle : Nat := 3
  introCTA : Nat := 3
deriving DecidableEq, Repr

structure EValidationResult where
  valid : Bool
  violations : List Violation
  structure' : Option EStructure := none
deriving DecidableEq, Repr

/-- `'; '.join`. -/
def joinSemi : List (List Char) → List Char
  | [] => []
  | [w] => w
  | w :: rest => w ++ ';' :: ' ' :: joinSemi rest

/-- The variant-count checks (subject, preheader, bannerTitle). -/
def variantCountViolations (st : EStructure) (req : VariantCounts) : List Violation :=
  (if st.subject.length < req.subject then
    [{ code := "VARIANT_COUNT_INSUFFICIENT", severity := .ERROR,
       message := "Недостаточно вариантов темы: " ++ toString st.subject.length ++
         " < " ++ toString req.subject,
       location := "subject", evidence := ⟨joinSemi st.subject⟩ }]
  else []) ++
  (if st.preheader.length < req.preheader then
    [{ code := "VARIANT_COUNT_INSUFFICIENT", severity := .ERROR,
       message := "Недостаточно вариантов прехедера: " ++ toString st.preheader.length ++
         " < " ++ toString req.preheader,
       location := "preheader", evidence := ⟨joinSemi st.preheader⟩ }]
  else []) ++
  (if st.bannerTitle.length < req.bannerTitle then
    [{ code := "VARIANT_COUNT_INSUFFICIENT", severity := .ERROR,
       message := "Недостаточно вариантов заголовка баннера: " ++ toString st.bannerTitle.length ++
         " < " ++ toString req.bannerTitle,
       location := "bannerTitle", evidence := ⟨joinSemi st.bannerTitle⟩ }]
  else [])

/-- Key parts for the 3-gram duplication check, in source order. -/
def keyParts (st : EStructure) : List (String × List Char) :=
  [("subject", joinSpace st.subject),
   ("preheader", joinSpace st.preheader),
   ("bannerTitle", joinSpace st.bannerTitle),
   ("bannerSubtitle", joinSpace st.bannerSubtitle),
   ("intro", st.introText)]

/-- One unordered pair `(i, j)` with `i < j` per comparison. -/
def trigramPairViolations (parts : List (String × List Char)) : List Violation :=
  match parts with
  | [] => []
  | (ni, ti) :: rest =>
    rest.flatMap (fun p =>
      let grams1 := extract3Grams ti
      let grams2 := extract3Grams p.2
      let intersection := grams1.filter (fun g => grams2.contains g)
      if intersection.length > 0 then
        [{ code := "TRIGRAM_DUPLICATION", severity := .ERROR,
           message := "Дублирование 3+ слов между " ++ ni ++ " и " ++ p.1,
           location := ni ++ " <-> " ++ p.1,
           evidence := ⟨joinSemi (intersection.take 3)⟩,
           suggestedFix := some "Переформулируйте один из фрагментов" }]
      else []) ++ trigramPairViolations rest

/-- The two exact-equality nested loops. -/
def exactEqualityViolations (st : EStructure) : List Violation :=
  (st.subject.flatMap (fun s =>
    st.bannerTitle.flatMap (fun t =>
      if trimJS s = trimJS t then
        [{ code := "EXACT_EQUALITY", severity := .ERROR,
           message := "Тема не должна точно совпадать с заголовком баннера",
           location := "subject == bannerTitle", evidence := ⟨s⟩ }]
      else []))) ++
  (st.preheader.flatMap (fun p =>
    st.bannerSubtitle.flatMap (fun t =>
      if trimJS p = trimJS t then
        [{ code := "EXACT_EQUALITY", severity := .ERROR,
           message := "Прехедер не должен точно совпадать с подзаголовком баннера",
           location := "preheader == bannerSubtitle", evidence := ⟨p⟩ }]
      else []))) 

/-- `<br\s*\/?>` at the head of the input (case-insensitive). -/
def brRem : List Char → Option (List Char)
  | a :: b :: c :: rest =>
    if a = '<' && lowerChar b = 'b' && lowerChar c = 'r' then
      match rest.dropWhile isSpaceJS with
      | '/' :: '>' :: rem => some rem
      | '>' :: rem => some rem
      | _ => none
    else none
  | _ => none

/-- Worker for `splitParas`; the fuel argument only drives structural
    recursion and is always at least the input length plus one. -/
def splitParasGo (cur : List Char) : Nat → List Char → List (List Char)
  | _, [] => [cur.reverse]
  | 0, l => [cur.reverse ++ l]
  | fuel + 1, c :: r =>
    if c = '\n' && (match r with | c' :: _ => c' = '\n' | [] => false) then
      cur.reverse :: splitParasGo [] fuel (r.dropWhile (· = '\n'))
    else
      match brRem (c :: r) with
      | some rem => cur.reverse :: splitParasGo [] fuel rem
      | none => splitParasGo (c :: cur) fuel r

/-- `.split(/\n\n+|<br\s*\/?>/gi)`. -/
def splitParas (l : List Char) : List (List Char) :=
  splitParasGo [] (l.length + 1) l

/-- The block paragraph-count check (WARNING). -/
def blockLengthViolations (blocks : List EBlock) : List Violation :=
  (blocks.enum.map (fun bi =>
    let block := bi.2
    let index := bi.1
    let blockNum := index + 1
    let blockText := block.text
    let paragraphs := (splitParas blockText).filter (fun p => !(trimJS p).isEmpty)
    if paragraphs.length > 2 then
      [{ code := "BLOCK_TOO_LONG", severity := .WARNING,
         message := "В блоке " ++ toString blockNum ++ " больше 2 абзацев (найдено: " ++
           toString paragraphs.length ++ ")",
         location := "blocks[" ++ toString index ++ "]",
         evidence := ⟨blockText.take 100 ++ (if blockText.length > 100 then "...".data else [])⟩,
         suggestedFix := some "Сократите до 1-2 абзацев, сохранив только ключевые факты из FACTS/KEY_POINTS" }]
    else [])).flatten

/-- The service-phrase patterns, in source order. -/
def servicePatternsList : List M :=
  [ mSeq (mOpt (mCls (· = '['))) (mLit "check".data),
    mSeq (mOpt (mCls (· = '['))) (mLit "valid".data),
    mLit "preflight".data,
    mLit "violation".data,
    mSeqs [mLit "все".data, mLit " ".data, mLit "правила".data, mLit " ".data, mLit "соблюдены".data],
    mSeqs [mLit "проверка".data, mLit " ".data, mLit "пройдена".data] ]

/-- `/SWChecks_bot|@SWChecks_bot/i`. -/
def reSwBot : M := mAlt (mLit "swchecks_bot".data) (mLit "@swchecks_bot".data)

def servicePhraseViolations (output : List Char) : List Violation :=
  servicePatternsList.flatMap (fun pattern =>
    match mFind pattern (lowerStr output) with
    | some (matchIndex, n) =>
      let matchedText := (output.drop matchIndex).take n
      -- exception: the @SWChecks_bot Telegram handle
      let contextBefore := substringJS output (matchIndex - 10) matchIndex
      let contextAfter := substringJS output matchIndex (matchIndex + n + 10)
      let fullContext := contextBefore ++ contextAfter
      if mSearch reSwBot (lowerStr fullContext) then []
      else
        [{ code := "SERVICE_PHRASE_DETECTED", severity := .ERROR,
           message := "Обнаружены служебные фразы или чеклисты в выводе",
           location := "output", evidence := ⟨matchedText⟩,
           suggestedFix := some "Удалите все служебные фразы, показывайте только контент" }]
    | none => [])

/-- The per-variant check battery for subject/preheader (with a char limit)
    and the banner fields (without). -/
def emailFieldChecks (variant : List Char) (limit : Option Nat) (location : String) : List Violation :=
  (match limit with
   | some n => checkCharLimit variant n location
   | none => []) ++
  checkEmojis variant location ++
  checkForbiddenWords variant location ++
  checkBannedCliches variant location ++
  checkGeographyLabels variant location

/-- The full ordered battery of checks of `validateEmail` on an extracted
    structure (the sequence of `violations.push(...)` calls of the source). -/
def emailViolations (st : EStructure) (requiredVariants : VariantCounts)
    (output : List Char) : List Violation :=
  variantCountViolations st requiredVariants ++
  st.subject.flatMap (fun s => emailFieldChecks s (some 30) "subject") ++
  st.preheader.flatMap (fun p => emailFieldChecks p (some 75) "preheader") ++
  st.bannerTitle.flatMap (fun t => emailFieldChecks t none "bannerTitle") ++
  st.bannerSubtitle.flatMap (fun t => emailFieldChecks t none "bannerSubtitle") ++
  (checkForbiddenWords st.introText "intro" ++
   checkBannedCliches st.introText "intro" ++
   checkGeographyLabels st.introText "intro") ++
  st.introCTA.flatMap (fun cta => checkForbiddenWords cta "introCTA") ++
  trigramPairViolations (keyParts st) ++
  exactEqualityViolations st ++
  blockLengthViolations st.blocks ++
  servicePhraseViolations output

/-- `validateEmail(output, parsedBrief, spec)`; `parsedBrief` is received but
    never used by the source, `spec.variantCounts` may be absent. -/
def validateEmail (output : List Char) (_parsedBrief : Unit)
    (specVariantCounts : Option VariantCounts) : EValidationResult :=
  match parseEmailOutput output with
  | none =>
    { valid := false,
      violations := [{ code := "PARSE_FAILED", severity := .ERROR,
                       message := "Не удалось распарсить структуру email",
                       location := "output", evidence := ⟨output.take 100⟩ }],
      structure' := none }
  | some st =>
    let violations := emailViolations st (specVariantCounts.getD {}) output
    { valid := (violations.filter (fun v => v.severity == Severity.ERROR)).length == 0,
      violations, structure' := some st }

end SW

namespace SW

/-! ## Multiformat validator (validatorMultiformat.js) -/

inductive MSec where
  | push_announce | push_reminder | push_last_call
  | sms_announce | sms_reminder | sms_last_call
  | yandex_maps | onboarding | landing_page | tabs
  | sticky_banner | sticky_banner_timer | ticker
deriving DecidableEq, Repr

def MSec.name : MSec → String
  | .push_announce => "push_announce" | .push_reminder => "push_reminder"
  | .push_last_call => "push_last_call" | .sms_announce => "sms_announce"
  | .sms_reminder => "sms_reminder" | .sms_last_call => "sms_last_call"
  | .yandex_maps => "yandex_maps" | .onboarding => "onboarding"
  | .landing_page => "landing_page" | .tabs => "tabs"
  | .sticky_banner => "sticky_banner" | .sticky_banner_timer => "sticky_banner_timer"
  | .ticker => "ticker"

def MSec.isSms : MSec → Bool
  | .sms_announce | .sms_reminder | .sms_last_call => true
  | _ => false

structure MVariant where
  number : Nat
  title : Option (List Char) := none
  subtitle : Option (List Char) := none
  text : Option (List Char) := none
  description : Option (List Char) := none
  button : Option (List Char) := none
deriving DecidableEq, Repr

structure MSections where
  push_announce : List MVariant := []
  push_reminder : List MVariant := []
  push_last_call : List MVariant := []
  sms_announce : List MVariant := []
  sms_reminder : List MVariant := []
  sms_last_call : List MVariant := []
  yandex_maps : List MVariant := []
  onboarding : List MVariant := []
  landing_page : List MVariant := []
  tabs : List MVariant := []
  sticky_banner : List MVariant := []
  sticky_banner_timer : List MVariant := []
  ticker : List MVariant := []
deriving DecidableEq, Repr

def MSections.get (s : MSections) : MSec → List MVariant
  | .push_announce => s.push_announce | .push_reminder => s.push_reminder
  | .push_last_call => s.push_last_call | .sms_announce => s.sms_announce
  | .sms_reminder => s.sms_reminder | .sms_last_call => s.sms_last_call
  | .yandex_maps => s.yandex_maps | .onboarding => s.onboarding
  | .landing_page => s.landing_page | .tabs => s.tabs
  | .sticky_banner => s.sticky_banner | .sticky_banner_timer => s.sticky_banner_timer
  | .ticker => s.ticker

def MSections.set (s : MSections) : MSec → List MVariant → MSections
  | .push_announce, l => { s with push_announce := l }
  | .push_reminder, l => { s with push_reminder := l }
  | .push_last_call, l => { s with push_last_call := l }
  | .sms_announce, l => { s with sms_announce := l }
  | .sms_reminder, l => { s with sms_reminder := l }
  | .sms_last_call, l => { s with sms_last_call := l }
  | .yandex_maps, l => { s with yandex_maps := l }
  | .onboarding, l => { s with onboarding := l }
  | .landing_page, l => { s with landing_page := l }
  | .tabs, l => { s with tabs := l }
  | .sticky_banner, l => { s with sticky_banner := l }
  | .sticky_banner_timer, l => { s with sticky_banner_timer := l }
  | .ticker, l => { s with ticker := l }

/-- In-place update of the variant object at `i` of section `sec`
    (JS mutation through the `currentVariant` reference). -/
def MSections.updateAt (s : MSections) (sec : MSec) (i : Nat) (f : MVariant → MVariant) : MSections :=
  s.set sec ((s.get sec).enum.map (fun p => if p.1 = i then f p.2 else p.2))

/-- A dash of class `[—–-]`. -/
def isDash3 (c : Char) : Bool := c = '—' || c = '–' || c = '-'

/-- `/<num>\.\s*<words with \s* gaps>/i` builder: the multiformat section
    header regexes are all of this shape. -/
def mHdr (pieces : List M) : M := mSeqs pieces

def mfSectionTable : List (M × MSec) :=
  [ (mHdr [mLit "1.1.".data, wsStar, mLit "пуш".data, wsStar, mCls isDash3, wsStar, mLit "анонс".data], .push_announce),
    (mHdr [mLit "1.2.".data, wsStar, mLit "пуш".data, wsStar, mCls isDash3, wsStar, mLit "напоминание".data], .push_reminder),
    (mHdr [mLit "1.3.".data, wsStar, mLit "пуш".data, wsStar, mCls isDash3, wsStar, mLit "последний".data, wsStar, mLit "звонок".data], .push_last_call),
    (mHdr [mLit "2.1.".data, wsStar, mLit "смс".data, wsStar, mCls isDash3, wsStar, mLit "анонс".data], .sms_announce),
    (mHdr [mLit "2.2.".data, wsStar, mLit "смс".data, wsStar, mCls isDash3, wsStar, mLit "напоминание".data], .sms_reminder),
    (mHdr [mLit "2.3.".data, wsStar, mLit "смс".data, wsStar, mCls isDash3, wsStar, mLit "последний".data, wsStar, mLit "звонок".data], .sms_last_call),
    (mHdr [mLit "3.1.".data, wsStar, mLit "яндекс".data, wsStar, mLit "карты".data], .yandex_maps),
    (mHdr [mLit "3.2.".data, wsStar, mLit "онбординг".data], .onboarding),
    (mHdr [mLit "3.3.".data, wsStar, mLit "текст".data, wsStar, mLit "на".data, wsStar, mLit "lp".data], .landing_page),
    (mHdr [mLit "3.4.".data, wsStar, mLit "табы".data], .tabs),
    (mHdr [mLit "3.5.".data, wsStar, mLit "стики-баннер".data, wsStar, mLit "без".data, wsStar, mLit "таймера".data], .sticky_banner),
    (mHdr [mLit "3.6.".data, wsStar, mLit "стики-баннер".data, wsStar, mLit "с".data, wsStar, mLit "таймером".data], .sticky_banner_timer),
    (mHdr [mLit "3.7.".data, wsStar, mLit "бегущая".data, wsStar, mLit "строка".data], .ticker) ]

/-- First section header regex matching the trimmed line (the source's
    else-if chain). -/
def detectMfSection (trimmed : List Char) : Option MSec :=
  (mfSectionTable.find? (fun e => mSearch e.1 (lowerStr trimmed))).map (·.2)

def parseNatDigits (ds : List Char) : Nat :=
  ds.foldl (fun a c => a * 10 + (c.toNat - 48)) 0

/-- `/^-?\s*Вариант\s*(\d+)/i`: the captured variant number. -/
def variantNumMatch (l : List Char) : Option Nat :=
  let l := lowerStr l
  let l := match l with
    | '-' :: r => r
    | _ => l
  let l := l.dropWhile isSpaceJS
  if "вариант".data.isPrefixOf l then
    let rest := l.drop 7
    let rest := rest.dropWhile isSpaceJS
    let ds := rest.takeWhile isDigitJS
    if ds.isEmpty then none else some (parseNatDigits ds)
  else none

/-- `/^-?\s*Вариант\s*\d+:\s*(.+)/i`: the captured single-line content. -/
def variantLineCapture (l : List Char) : Option (List Char) :=
  let low := lowerStr l
  let low := match low, l with
    | '-' :: r, _ :: lr => (r, lr)
    | _, _ => (low, l)
  let (lw, orig) := low
  let n := lw.length - (lw.dropWhile isSpaceJS).length
  let lw := lw.drop n
  let orig := orig.drop n
  if "вариант".data.isPrefixOf lw then
    let lw := lw.drop 7
    let orig := orig.drop 7
    let n := lw.length - (lw.dropWhile isSpaceJS).length
    let lw := lw.drop n
    let orig := orig.drop n
    let ds := lw.takeWhile isDigitJS
    if ds.isEmpty then none
    else
      match lw.drop ds.length, orig.drop ds.length with
      | ':' :: restL, _ :: restO =>
        if restL.isEmpty then none else some (trimJS restO)
      | _, _ => none
  else none

/-- Unanchored `/<key>:\s*(.+)/i` capture: first occurrence of the key with a
    non-empty tail; the captured group is trimmed by the caller. -/
def fieldCapture (key : List Char) (l : List Char) : Option (List Char) :=
  go (lowerStr l) l
where
  go : List Char → List Char → Option (List Char)
    | low, orig =>
      if key.isPrefixOf low && !(low.drop key.length).isEmpty then
        some (trimJS (orig.drop key.length))
      else
        match low, orig with
        | _ :: lr, _ :: orr => go lr orr
        | _, _ => none

/-- One line of `parseGeneratedContent`. -/
def parseMfLine (acc : MSections × Option MSec × Option (MSec × Nat))
    (line : List Char) : MSections × Option MSec × Option (MSec × Nat) :=
  let (sections, currentSection0, currentVariant0) := acc
  let trimmed := trimJS line
  -- detect section headers (else-if chain; no continue in the source)
  let currentSection := (detectMfSection trimmed).orElse (fun _ => currentSection0)
  match currentSection with
  | none => (sections, currentSection, currentVariant0)
  | some sec =>
    if trimmed.isEmpty then (sections, currentSection, currentVariant0)
    else
      -- check for variant start
      let (sections, currentVariant) :=
        match variantNumMatch trimmed with
        | some n =>
          (sections.set sec (sections.get sec ++ [({ number := n } : MVariant)]),
           some (sec, (sections.get sec).length))
        | none => (sections, currentVariant0)
      match currentVariant with
      | none => (sections, currentSection, currentVariant)
      | some (vsec, vi) =>
        let titleMatch := fieldCapture "заголовок:".data trimmed
        let subtitleMatch := fieldCapture "подзаголовок:".data trimmed
        let textMatch := fieldCapture "текст:".data trimmed
        let descMatch := fieldCapture "описание:".data trimmed
        let buttonMatch := fieldCapture "кнопка:".data trimmed
        let upd (o : Option (List Char)) (f : MVariant → List Char → MVariant)
            (s : MSections) : MSections :=
          match o with
          | some c => s.updateAt vsec vi (fun v => f v c)
          | none => s
        let sections := upd titleMatch (fun v c => { v with title := some c }) sections
        let sections := upd subtitleMatch (fun v c => { v with subtitle := some c }) sections
        let sections := upd textMatch (fun v c => { v with text := some c }) sections
        let sections := upd descMatch (fun v c => { v with description := some c }) sections
        let sections := upd buttonMatch (fun v c => { v with button := some c }) sections
        -- SMS single-line format
        let sections :=
          if sec.isSms && textMatch.isNone then
            upd (variantLineCapture trimmed) (fun v c => { v with text := some c }) sections
          else sections
        -- Ticker/Sticky single-line format
        let sections :=
          if (sec = MSec.ticker || sec = MSec.sticky_banner || sec = MSec.sticky_banner_timer)
              && textMatch.isNone then
            upd (variantLineCapture trimmed) (fun v c => { v with text := some c }) sections
          else sections
        (sections, currentSection, currentVariant)

def parseGeneratedContent (content : List Char) : MSections :=
  ((splitNL content).foldl parseMfLine ({}, none, none)).1

end SW

namespace SW

structure MVStats where
  totalChecks : Nat := 0
  errors : Nat := 0
  warnings : Nat := 0
deriving DecidableEq, Repr

/-- A checker contribution: violations pushed and counters incremented. -/
def Delta := List Violation × MVStats

def dZero : Delta := ([], {})

def dAdd (a b : Delta) : Delta :=
  (a.1 ++ b.1,
   { totalChecks := a.2.totalChecks + b.2.totalChecks,
     errors := a.2.errors + b.2.errors,
     warnings := a.2.warnings + b.2.warnings })

def dSum (l : List Delta) : Delta := l.foldl dAdd dZero

/-- JS truthiness of an optional string field. -/
def jsTruthy (o : Option (List Char)) : Bool :=
  match o with
  | some t => !t.isEmpty
  | none => false

def jsGet (o : Option (List Char)) : List Char := o.getD []

/-- `variant.number || idx + 1`. -/
def varNum (v : MVariant) (idx : Nat) : Nat :=
  if v.number ≠ 0 then v.number else idx + 1

/-- `"<text>" (<len> символов)`. -/
def lenEvidence (t : List Char) : String :=
  "\"" ++ String.mk t ++ "\" (" ++ toString (utf16Len t) ++ " символов)"

/-- checkLengthLimits, per push-section variant. -/
def pushLimitDelta (sectionName : String) (idx : Nat) (v : MVariant) : Delta :=
  dAdd
    ( (if jsTruthy v.title && utf16Len (jsGet v.title) > 32 then
        [{ code := "PUSH_TITLE_OVERLIMIT", severity := .ERROR,
           message := "Пуш заголовок превышает лимит 32 символов",
           location := sectionName ++ " вариант " ++ toString (varNum v idx),
           evidence := lenEvidence (jsGet v.title),
           suggestedFix := some "Сократите до 32 символов" }]
      else []),
      { totalChecks := 1,
        errors := if jsTruthy v.title && utf16Len (jsGet v.title) > 32 then 1 else 0 } )
    ( (if jsTruthy v.subtitle && utf16Len (jsGet v.subtitle) > 60 then
        [{ code := "PUSH_SUBTITLE_OVERLIMIT", severity := .ERROR,
           message := "Пуш подзаголовок превышает лимит 60 символов",
           location := sectionName ++ " вариант " ++ toString (varNum v idx),
           evidence := lenEvidence (jsGet v.subtitle),
           suggestedFix := some "Сократите до 60 символов" }]
      else []),
      { totalChecks := 1,
        errors := if jsTruthy v.subtitle && utf16Len (jsGet v.subtitle) > 60 then 1 else 0 } )

/-- checkLengthLimits, per SMS variant. -/
def smsLimitDelta (sectionName : String) (idx : Nat) (v : MVariant) : Delta :=
  ( (if jsTruthy v.text && utf16Len (jsGet v.text) > 78 then
      [{ code := "SMS_TEXT_OVERLIMIT", severity := .ERROR,
         message := "SMS текст превышает лимит 78 символов (без учёта \"по карте №12345\")",
         location := sectionName ++ " вариант " ++ toString (varNum v idx),
         evidence := lenEvidence (jsGet v.text),
         suggestedFix := some "Сократите до 78 символов" }]
    else []),
    { totalChecks := 1,
      errors := if jsTruthy v.text && utf16Len (jsGet v.text) > 78 then 1 else 0 } )

/-- checkLengthLimits, per Yandex-Maps variant. -/
def yandexLimitDelta (idx : Nat) (v : MVariant) : Delta :=
  -- const text = variant.text || ''
  dAdd
    ( (if utf16Len (jsGet v.text) < 150 then
        [{ code := "YANDEX_TEXT_UNDERLIMIT", severity := .WARNING,
           message := "Яндекс Карты текст меньше минимума 150 символов",
           location := "yandex_maps вариант " ++ toString (varNum v idx),
           evidence := lenEvidence (jsGet v.text) }]
      else []),
      { totalChecks := 1, warnings := if utf16Len (jsGet v.text) < 150 then 1 else 0 } )
    ( (if utf16Len (jsGet v.text) > 300 then
        [{ code := "YANDEX_TEXT_OVERLIMIT", severity := .ERROR,
           message := "Яндекс Карты текст превышает лимит 300 символов",
           location := "yandex_maps вариант " ++ toString (varNum v idx),
           evidence := lenEvidence (jsGet v.text) }]
      else []),
      { errors := if utf16Len (jsGet v.text) > 300 then 1 else 0 } )

/-- checkLengthLimits, per onboarding variant. -/
def onboardingLimitDelta (idx : Nat) (v : MVariant) : Delta :=
  dAdd
    ( (if jsTruthy v.title && utf16Len (jsGet v.title) > 40 then
        [{ code := "ONBOARDING_TITLE_OVERLIMIT", severity := .ERROR,
           message := "Онбординг заголовок превышает лимит 40 символов",
           location := "onboarding вариант " ++ toString (varNum v idx),
           evidence := lenEvidence (jsGet v.title) }]
      else []),
      { totalChecks := 1,
        errors := if jsTruthy v.title && utf16Len (jsGet v.title) > 40 then 1 else 0 } )
    ( (if jsTruthy v.subtitle && utf16Len (jsGet v.subtitle) > 60 then
        [{ code := "ONBOARDING_SUBTITLE_OVERLIMIT", severity := .ERROR,
           message := "Онбординг подзаголовок превышает лимит 60 символов",
           location := "onboarding вариант " ++ toString (varNum v idx),
           evidence := lenEvidence (jsGet v.subtitle) }]
      else []),
      { errors := if jsTruthy v.subtitle && utf16Len (jsGet v.subtitle) > 60 then 1 else 0 } )

/-- checkLengthLimits, per landing-page variant. -/
def landingLimitDelta (idx : Nat) (v : MVariant) : Delta :=
  dAdd
    ( (if jsTruthy v.title && utf16Len (jsGet v.title) > 47 then
        [{ code := "LP_TITLE_OVERLIMIT", severity := .ERROR,
           message := "LP заголовок превышает лимит 47 символов",
           location := "landing_page вариант " ++ toString (varNum v idx),
           evidence := lenEvidence (jsGet v.title) }]
      else []),
      { totalChecks := 1,
        errors := if jsTruthy v.title && utf16Len (jsGet v.title) > 47 then 1 else 0 } )
    (if jsTruthy v.description && utf16Len (jsGet v.description) > 428 then
      ( [{ code := "LP_DESC_OVERLIMIT", severity := .ERROR,
           message := "LP описание превышает лимит 428 символов",
           location := "landing_page вариант " ++ toString (varNum v idx),
           evidence := "(" ++ toString (utf16Len (jsGet v.description)) ++ " символов)" }],
        { errors := 1 } )
    else if jsTruthy v.description && utf16Len (jsGet v.description) > 375 then
      ( [{ code := "LP_DESC_OVER_RECOMMENDED", severity := .WARNING,
           message := "LP описание превышает рекомендуемые 375 символов",
           location := "landing_page вариант " ++ toString (varNum v idx),
           evidence := "(" ++ toString (utf16Len (jsGet v.description)) ++ " символов)" }],
        { warnings := 1 } )
    else dZero)

/-- checkLengthLimits, per single-text variant (sticky banner / timer / ticker). -/
def singleTextLimitDelta (code message sectionName : String) (limit : Nat)
    (idx : Nat) (v : MVariant) : Delta :=
  -- const text = variant.text || ''
  ( (if utf16Len (jsGet v.text) > limit then
      [{ code, severity := .ERROR, message,
         location := sectionName ++ " вариант " ++ toString (varNum v idx),
         evidence := lenEvidence (jsGet v.text) }]
    else []),
    { totalChecks := 1, errors := if utf16Len (jsGet v.text) > limit then 1 else 0 } )

def perVariant (f : Nat → MVariant → Delta) (vs : List MVariant) : Delta :=
  dSum (vs.enum.map (fun p => f p.1 p.2))

def checkLengthLimits (sections : MSections) : Delta :=
  dSum
    [ perVariant (pushLimitDelta "push_announce") sections.push_announce,
      perVariant (pushLimitDelta "push_reminder") sections.push_reminder,
      perVariant (pushLimitDelta "push_last_call") sections.push_last_call,
      perVariant (smsLimitDelta "sms_announce") sections.sms_announce,
      perVariant (smsLimitDelta "sms_reminder") sections.sms_reminder,
      perVariant (smsLimitDelta "sms_last_call") sections.sms_last_call,
      perVariant yandexLimitDelta sections.yandex_maps,
      perVariant onboardingLimitDelta sections.onboarding,
      perVariant landingLimitDelta sections.landing_page,
      perVariant (singleTextLimitDelta "STICKY_TEXT_OVERLIMIT"
        "Стики-баннер текст превышает лимит 50 символов" "sticky_banner" 50) sections.sticky_banner,
      perVariant (singleTextLimitDelta "STICKY_TIMER_TEXT_OVERLIMIT"
        "Стики-баннер с таймером превышает лимит 58 символов" "sticky_banner_timer" 58) sections.sticky_banner_timer,
      perVariant (singleTextLimitDelta "TICKER_TEXT_OVERLIMIT"
        "Бегущая строка превышает лимит 40 символов" "ticker" 40) sections.ticker ]

/-- The SMS alcohol-word list. -/
def smsForbiddenAlcohol : List String :=
  ["вино", "вина", "вином", "вину", "алкогол", "игрист", "крепк", "шампан",
   "коньяк", "виски", "водк", "текил", "ром", "красн", "бел", "просекко", "кава"]

/-- checkSMSAlcoholRestrictions, per variant (break after the first word hit). -/
def smsAlcoholDelta (sectionName : String) (idx : Nat) (v : MVariant) : Delta :=
  match smsForbiddenAlcohol.find? (fun word => hasSubstr (lowerStr (jsGet v.text)) word.data) with
  | some word =>
    ( [{ code := "SMS_ALCOHOL_MENTION", severity := .ERROR,
         message := "SMS содержит упоминание алкоголя (\"" ++ word ++ "\")",
         location := sectionName ++ " вариант " ++ toString (varNum v idx),
         evidence := ⟨jsGet v.text⟩,
         suggestedFix := some "Используйте: \"коллекция\", \"ассортимент\", \"хиты\", \"подборка\", \"выгода\"" }],
      { totalChecks := 1, errors := 1 } )
  | none => ([], { totalChecks := 1 })

def checkSMSAlcoholRestrictions (sections : MSections) : Delta :=
  dSum
    [ perVariant (smsAlcoholDelta "sms_announce") sections.sms_announce,
      perVariant (smsAlcoholDelta "sms_reminder") sections.sms_reminder,
      perVariant (smsAlcoholDelta "sms_last_call") sections.sms_last_call ]

/-- checkStickyTimerFormat, per variant. -/
def stickyTimerDelta (idx : Nat) (v : MVariant) : Delta :=
  -- const text = variant.text || ''
  ( (if !hasSubstr (jsGet v.text) "[таймер]".data && !hasSubstr (jsGet v.text) "[timer]".data then
      [{ code := "STICKY_TIMER_MISSING_TAG", severity := .ERROR,
         message := "Стики-баннер с таймером должен заканчиваться на [таймер]",
         location := "sticky_banner_timer вариант " ++ toString (varNum v idx),
         evidence := ⟨jsGet v.text⟩,
         suggestedFix := some "Добавьте [таймер] в конец текста" }]
    else []),
    { totalChecks := 1,
      errors := if !hasSubstr (jsGet v.text) "[таймер]".data && !hasSubstr (jsGet v.text) "[timer]".data then 1 else 0 } )

def checkStickyTimerFormat (sections : MSections) : Delta :=
  perVariant stickyTimerDelta sections.sticky_banner_timer

/-- `\b` + literal with first-match index (for evidence slicing). -/
def searchBoundedLitIdx (lit : List Char) (text : List Char) : Option Nat :=
  go none 0 (lowerStr text)
where
  go : Option Char → Nat → List Char → Option Nat
    | _, _, [] => none
    | prev, i, c :: r =>
      let boundary := (match prev with
        | none => isWordJS c
        | some p => isWordJS p != isWordJS c)
      if boundary && lit.isPrefixOf (c :: r) then some i
      else go (some c) (i + 1) r

def abbreviationPatternsList : List String :=
  ["т.к.", "т.е.", "и т.д.", "и т.п.", "др.", "г.", "руб.", "тыс.", "млн."]

/-- checkAbbreviations (one totalChecks increment, then one WARNING per
    pattern that matches; `match[0]` is the original-case literal). -/
def checkAbbreviations (content : List Char) : Delta :=
  dAdd ([], { totalChecks := 1 })
    (dSum (abbreviationPatternsList.map (fun pat =>
      match searchBoundedLitIdx pat.data content with
      | some i =>
        let matched := String.mk ((content.drop i).take pat.data.length)
        ( [{ code := "ABBREVIATED_WORD", severity := .WARNING,
             message := "Найдено сокращённое слово: \"" ++ matched ++ "\"",
             location := "Общий текст", evidence := matched,
             suggestedFix := some "Запрещено сокращать слова" }],
          { warnings := 1 } )
      | none => dZero)))

/-- `/напит[оа]к/i`. -/
def reNapitok : M :=
  mSeqs [mLit "напит".data, mCls (fun c => c = 'о' || c = 'а'), mLit "к".data]

/-- `/напит[оа]к[а-яё]*/i` (for the evidence). -/
def reNapitokEv : M := mSeq reNapitok (mStar isCyrLower)

def checkForbiddenNapitok (content : List Char) : Delta :=
  dAdd ([], { totalChecks := 1 })
    (if mSearch reNapitok (lowerStr content) then
      ( [{ code := "FORBIDDEN_NAPITOK", severity := .ERROR,
           message := "Слово \"напиток\" запрещено",
           location := "Общий текст",
           evidence := ⟨(mMatch0 reNapitokEv content).getD "напиток".data⟩,
           suggestedFix := some "Используйте конкретные названия: вино, игристое, коньяк" }],
        { errors := 1 } )
    else dZero)

/-- `/купить?\s+в\s+винотек/i`. -/
def reKupitVinotek : M :=
  mSeqs [mLit "купит".data, mOpt (mCls (· = 'ь')), wsPlus,
         mLit "в".data, wsPlus, mLit "винотек".data]

/-- `/купи[тьа]?[^\s]*/i` (for the evidence). -/
def reKupiEv : M :=
  mSeqs [mLit "купи".data, mOpt (mCls (fun c => c = 'т' || c = 'ь' || c = 'а')),
         mStar (fun c => !isSpaceJS c)]

/-- checkCTARules: `/\bкупи/` over the lowered content has ASCII-only `\b`
    semantics, so the boundary needs a word character on exactly one side. -/
def checkCTARules (content : List Char) : Delta :=
  dAdd ([], { totalChecks := 1 })
    (if searchBoundedLit "купи".data (lowerStr content) then
      if !mSearch reKupitVinotek (lowerStr content) then
        ( [{ code := "FORBIDDEN_KUPIT_CTA", severity := .ERROR,
             message := "CTA \"купить\" запрещён (кроме \"купить в винотеке\")",
             location := "Общий текст",
             evidence := ⟨(mMatch0 reKupiEv content).getD "купить".data⟩,
             suggestedFix := some "Используйте: \"Заказать\", \"Выбрать\", \"Открыть\"" }],
          { errors := 1 } )
      else dZero
    else dZero)

/-- One match attempt of the discount regex (optional minus, one or two
    digits, percent sign) at the head, JS backtracking order. -/
def discountAt (l : List Char) : Option (List Char × List Char) :=
  let digitsPct (l : List Char) : Option (List Char × List Char) :=
    match l with
    | d1 :: d2 :: '%' :: r =>
      if isDigitJS d1 && isDigitJS d2 then some ([d1, d2, '%'], r)
      else if isDigitJS d1 && d2 = '%' then some ([d1, '%'], d2 :: '%' :: r) else none
    | d1 :: '%' :: r => if isDigitJS d1 then some ([d1, '%'], r) else none
    | _ => none
  match l with
  | '-' :: r =>
    match digitsPct r with
    | some (m, rem) => some ('-' :: m, rem)
    | none => digitsPct l
  | _ => digitsPct l

/-- All global matches of the discount regex, left to right (fuelled scan). -/
def collectDiscounts : Nat → List Char → List (List Char)
  | _, [] => []
  | 0, _ => []
  | fuel + 1, c :: r =>
    match discountAt (c :: r) with
    | some (m, rem) => m :: collectDiscounts fuel rem
    | none => collectDiscounts fuel r

/-- `m.replace('-', '')` for a discount match. -/
def stripMinus (m : List Char) : List Char :=
  match m with
  | '-' :: r => r
  | _ => m

/-- `', '.join`. -/
def joinComma : List (List Char) → List Char
  | [] => []
  | [w] => w
  | w :: rest => w ++ ',' :: ' ' :: joinComma rest

def checkMessageConsistency (sections : MSections) : Delta :=
  let allVariants :=
    sections.push_announce ++ sections.push_reminder ++ sections.push_last_call ++
    sections.sms_announce ++ sections.sms_reminder ++ sections.sms_last_call ++
    sections.onboarding ++ sections.landing_page ++ sections.ticker ++
    sections.sticky_banner ++ sections.sticky_banner_timer
  let allMatches := allVariants.flatMap (fun v =>
    let text := joinSpace (([v.title, v.subtitle, v.text, v.description].filter jsTruthy).map jsGet)
    collectDiscounts (text.length + 1) text)
  let foundDiscounts := dedupFirst (allMatches.map stripMinus)
  dAdd ([], { totalChecks := 1 })
    (if foundDiscounts.length > 2 then
      ( [{ code := "INCONSISTENT_DISCOUNTS", severity := .WARNING,
           message := "Найдены разные значения скидок: " ++ String.mk (joinComma foundDiscounts),
           location := "Все форматы",
           evidence := ⟨joinComma foundDiscounts⟩,
           suggestedFix := some "Убедитесь, что цифры скидок идентичны во всех форматах" }],
        { warnings := 1 } )
    else dZero)

structure MVResult where
  isValid : Bool
  violations : List Violation
  stats : MVStats
deriving DecidableEq, Repr

/-- `validateMultiformat(generatedContent, parsedBrief)`; `parsedBrief` is
    passed to checkMessageConsistency but never used there. -/
def validateMultiformat (generatedContent : List Char) (_parsedBrief : Unit) : MVResult :=
  let sections := parseGeneratedContent generatedContent
  let d := dSum
    [ checkLengthLimits sections,
      checkSMSAlcoholRestrictions sections,
      checkStickyTimerFormat sections,
      checkAbbreviations generatedContent,
      checkForbiddenNapitok generatedContent,
      checkCTARules generatedContent,
      checkMessageConsistency sections ]
  { isValid := d.2.errors == 0, violations := d.1, stats := d.2 }

end SW

namespace SW

/-! ## Repair orchestrator (generateMultiformat.js)

    The external LLM transport (`callLLM`) is abstracted as an oracle mapping
    each attempt number to either the generated draft or a rejection message;
    everything else follows the source control flow. -/

structure AttemptRec where
  attempt : Nat
  draft : List Char
  validation : MVResult
deriving DecidableEq, Repr

structure GenResult where
  success : Bool
  content : List Char
  violations : List Violation
  attempts : Nat
  attemptHistory : List AttemptRec
deriving DecidableEq, Repr

/-- The repair loop, `for (let attempt = 2; attempt <= MAX_REPAIR_ATTEMPTS; attempt++)`.
    `remaining` counts the loop iterations left (`maxA - attempt + 1`) and
    drives the recursion; a rejected generation is caught and the loop
    continues with the state unchanged. -/
def repairLoopMF (gen : Nat → Except String (List Char)) :
    Nat → Nat → Nat → List Char → MVResult → List AttemptRec → GenResult
  | 0, _, maxA, lastDraft, lastValidation, hist =>
    -- max attempts reached
    { success := false, content := lastDraft,
      violations := lastValidation.violations, attempts := maxA,
      attemptHistory := hist }
  | r + 1, attempt, maxA, lastDraft, lastValidation, hist =>
    match gen attempt with
    | .error _ =>
      -- catch: continue to next attempt
      repairLoopMF gen r (attempt + 1) maxA lastDraft lastValidation hist
    | .ok d =>
      let v := validateMultiformat d ()
      let hist' := hist ++ [{ attempt := attempt, draft := d, validation := v }]
      if v.isValid then
        { success := true, content := d, violations := [],
          attempts := attempt, attemptHistory := hist' }
      else
        repairLoopMF gen r (attempt + 1) maxA d v hist'

/-- `generateMultiformat(parsedBrief, settings, onProgress)`.
    `briefProvided` and `apiKeyProvided` model the two precondition guards;
    `enableRepairLoop` is `settings.enableRepairLoop`
    (`MAX_REPAIR_ATTEMPTS = enableRepairLoop ? 3 : 1`). -/
def generateMultiformat (gen : Nat → Except String (List Char))
    (briefProvided apiKeyProvided enableRepairLoop : Bool) :
    Except String GenResult :=
  if !briefProvided then .error "No parsed brief provided"
  else if !apiKeyProvided then .error "No API key configured"
  else
    let maxRepairAttempts := if enableRepairLoop then 3 else 1
    -- attempt 1: initial generation; a rejection here is fatal
    match gen 1 with
    | .error e => .error ("Ошибка генерации: " ++ e)
    | .ok d1 =>
      let v1 := validateMultiformat d1 ()
      let hist := [{ attempt := 1, draft := d1, validation := v1 : AttemptRec }]
      if v1.isValid || !enableRepairLoop then
        .ok { success := v1.isValid, content := d1, violations := v1.violations,
              attempts := 1, attemptHistory := hist }
      else
        .ok (repairLoopMF gen (maxRepairAttempts - 1) 2 maxRepairAttempts d1 v1 hist)

/-! ## Email orchestrator (generateEmail.js)

    The repository's second orchestrator: the email validation-and-repair
    loop.  Unlike the multiformat orchestrator above, it has a
    signature-based early stop (from attempt 3 on) and, on exhaustion,
    returns the best attempt (fewest ERROR-severity violations, earliest on
    ties) selected by a reduce over the attempt history. -/

/-- Lexicographic code-point order on strings (the default JS
    `Array.prototype.sort` comparator; the code/location strings compared
    here are BMP-only, where code-point and UTF-16 orders agree). -/
def lexLe : List Char → List Char → Bool
  | [], _ => true
  | _ :: _, [] => false
  | a :: as, b :: bs =>
    if a.val < b.val then true
    else if b.val < a.val then false
    else lexLe as bs

def insertSortedStr (s : String) : List String → List String
  | [] => [s]
  | h :: t => if lexLe s.data h.data then s :: h :: t else h :: insertSortedStr s t

/-- `.sort()` with the default comparator. -/
def sortStrs : List String → List String
  | [] => []
  | h :: t => insertSortedStr h (sortStrs t)

/-- `.join('|')`. -/
def joinBar : List String → String
  | [] => ""
  | [s] => s
  | s :: t => s ++ "|" ++ joinBar t

/-- `generateViolationSignature`:
    `violations.map(v => code + ':' + location).sort().join('|')` —
    a sorted list of the `code:location` pairs, duplicates kept. -/
def generateViolationSignature (violations : List Violation) : String :=
  joinBar (sortStrs (violations.map (fun v => v.code ++ ":" ++ v.location)))

structure EAttemptRec where
  attempt : Nat
  draft : List Char
  validation : EValidationResult
deriving DecidableEq, Repr

/-- The caller-facing result of `generateEmail` (`warning` is present only
    on the exhausted-session return). -/
structure EGenResult where
  success : Bool
  content : List Char
  violations : List Violation
  attempts : Nat
  structure' : Option EStructure
  warning : Option String := none
deriving DecidableEq, Repr

/-- The best-attempt selection:
    `attemptHistory.reduce((best, current) => currentErrors < bestErrors ?
    current : best, attemptHistory[0])`.  The head is passed explicitly:
    the history always holds at least attempt 1 when this runs. -/
def bestAttemptReduce (h : EAttemptRec) (t : List EAttemptRec) : EAttemptRec :=
  (h :: t).foldl (fun best current =>
    if errCount current.validation.violations < errCount best.validation.violations then current
    else best) h

/-- The after-loop block of `generateEmail`: best attempt, its violations
    and structure, `attempts = attemptHistory.length`, and the warning
    string naming the remaining ERROR count.  The history is never empty
    here (attempt 1 is pushed before the loop); the `[]` case is
    unreachable. -/
def emailFinish : List EAttemptRec → EGenResult
  | [] =>
    { success := false, content := [], violations := [], attempts := 0,
      structure' := none, warning := none }
  | h :: t =>
    let bestAttempt := bestAttemptReduce h t
    { success := false, content := bestAttempt.draft,
      violations := bestAttempt.validation.violations,
      attempts := (h :: t).length,
      structure' := bestAttempt.validation.structure',
      warning := some ("Generated email has " ++
        toString (errCount bestAttempt.validation.violations) ++
        " validation error(s). Manual review required.") }

/-- The repair loop of `generateEmail`,
    `for (let attempt = 2; attempt <= MAX_REPAIR_ATTEMPTS; attempt++)`:
    `remaining` counts the loop iterations left and drives the recursion.
    A rejected generation is caught and the loop continues; after a
    validated-but-invalid repair, when `attempt > 2` the signatures of the
    previous pushed attempt (`attemptHistory[attemptHistory.length - 2]`,
    the last entry before the current push) and of the current one are
    compared and the loop breaks on equality. -/
def repairLoopEmail (gen : Nat → Except String (List Char))
    (requirements : Option VariantCounts) :
    Nat → Nat → List Char → EValidationResult → List EAttemptRec → EGenResult
  | 0, _, _, _, hist => emailFinish hist
  | r + 1, attempt, lastDraft, lastValidation, hist =>
    match gen attempt with
    | .error _ =>
      -- catch: continue to next attempt
      repairLoopEmail gen requirements r (attempt + 1) lastDraft lastValidation hist
    | .ok d =>
      let v := validateEmail d () requirements
      let hist' := hist ++ [{ attempt := attempt, draft := d, validation := v }]
      if v.valid then
        { success := true, content := d, violations := [],
          attempts := attempt, structure' := v.structure', warning := none }
      else
        let earlyStop :=
          decide (attempt > 2) &&
          (match hist.getLast? with
           | some prev =>
             generateViolationSignature prev.validation.violations ==
               generateViolationSignature v.violations
           | none => false)  -- unreachable: attempt 1 is always in the history
        if earlyStop then emailFinish hist'
        else repairLoopEmail gen requirements r (attempt + 1) d v hist'

/-- `generateEmail(parsedBrief, settings, onProgress)`.  As for the
    multiformat orchestrator, the LLM transport is an oracle indexed by the
    attempt number, `briefProvided`/`apiKeyProvided` model the precondition
    guards and `requirements` stands for
    `PromptComposer.extractSpecRequirements(parsedBrief)`.
    `MAX_REPAIR_ATTEMPTS = enableRepairLoop ? 3 : 1`; with the loop
    disabled the for loop body never runs and the single attempt falls
    through to the best-attempt block. -/
def generateEmail (gen : Nat → Except String (List Char))
    (briefProvided apiKeyProvided enableRepairLoop : Bool)
    (requirements : Option VariantCounts) : Except String EGenResult :=
  if !briefProvided then .error "No parsed brief provided"
  else if !apiKeyProvided then .error "No API key configured"
  else
    let maxRepairAttempts := if enableRepairLoop then 3 else 1
    -- attempt 1: initial generation; a rejection here is fatal
    match gen 1 with
    | .error e => .error ("Initial generation failed: " ++ e)
    | .ok d1 =>
      let v1 := validateEmail d1 () requirements
      let hist := [{ attempt := 1, draft := d1, validation := v1 : EAttemptRec }]
      if v1.valid then
        .ok { success := true, content := d1, violations := [],
              attempts := 1, structure' := v1.structure', warning := none }
      else
        .ok (repairLoopEmail gen requirements (maxRepairAttempts - 1) 2 d1 v1 hist)

/-! ## Repair scope resolver and surgical replacement (surgicalRepair.js) -/

structure RepairScope where
  field : String
  requiresFullContext : Bool
deriving DecidableEq, Repr

/-- Cross-field violations that require full regeneration. -/
def fullContextCodes : List String :=
  ["EXACT_EQUALITY", "TRIGRAM_DUPLICATION", "CROSS_FIELD_SIMILARITY"]

/-- Locations accepted as field-specific repair targets. -/
def validLocations : List String :=
  ["subject", "preheader", "bannerTitle", "bannerSubtitle", "body", "cta"]

def determineRepairScope (violation : Violation) : RepairScope :=
  if fullContextCodes.contains violation.code then
    { field := "all", requiresFullContext := true }
  else if validLocations.contains violation.location then
    { field := violation.location, requiresFullContext := false }
  else
    -- fallback: if location is unclear, regenerate all
    { field := "all", requiresFullContext := true }

/-- A dash of class `[—\-—]` (em dash or hyphen). -/
def isDash2 (c : Char) : Bool := c = '—' || c = '-'

/-- `вариант[аов]?`. -/
def mVariantWord : M :=
  mSeq (mLit "вариант".data) (mOpt (mCls (fun c => c = 'а' || c = 'о' || c = 'в')))

/-- The `sectionPatterns` table of extractField/replaceField. -/
def fieldPattern (fieldName : String) : Option M :=
  if fieldName = "subject" then
    some (mSeqs [mLit "тема".data, wsStar, mCls isDash2, wsStar,
                 mPlus isDigitJS, wsStar, mVariantWord])
  else if fieldName = "preheader" then
    some (mSeqs [mLit "прехедер".data, wsStar, mCls isDash2, wsStar,
                 mPlus isDigitJS, wsStar, mVariantWord])
  else if fieldName = "bannerTitle" then
    some (mSeqs [mAlts [mLit "заголовок".data, mLit "title".data,
                        mLit "заголовок баннера".data],
                 wsStar, mCls isDash2])
  else if fieldName = "bannerSubtitle" then
    some (mSeqs [mAlts [mLit "подзаголовок".data, mLit "subtitle".data,
                        mLit "подзаголовок баннера".data],
                 wsStar, mCls isDash2])
  else if fieldName = "body" then
    some (mSeqs [mLit "тело".data, wsStar, mLit "письма".data])
  else if fieldName = "cta" then
    some (mLit "cta".data)
  else none

/-- `pattern.test(line)` for a section pattern (unanchored, case-insensitive). -/
def fieldTest (p : M) (line : List Char) : Bool := mSearch p (lowerStr line)

/-- `/^(ТЕМА|ПРЕХЕДЕР|ЗАГОЛОВОК|ПОДЗАГОЛОВОК|ТЕЛО|CTA)\s*[—\-—]/i`. -/
def isNewSectionTest (line : List Char) : Bool :=
  mTestAt (mSeqs [mAlts [mLit "тема".data, mLit "прехедер".data,
                         mLit "заголовок".data, mLit "подзаголовок".data,
                         mLit "тело".data, mLit "cta".data],
                  wsStar, mCls isDash2])
    (lowerStr line)

/-- First index `≥ i` whose trimmed line satisfies the test. -/
def firstMatchIdx (test : List Char → Bool) : Nat → List (List Char) → Option Nat
  | _, [] => none
  | i, l :: rest => if test (trimJS l) then some i else firstMatchIdx test (i + 1) rest

/-- `extractField`: collect the trimmed lines from the section header until
    the next recognized section header. -/
def takeSectionLines : List (List Char) → List (List Char)
  | [] => []
  | l :: rest =>
    let t := trimJS l
    if isNewSectionTest t then []
    else t :: takeSectionLines rest

def extractFieldGo (p : M) : List (List Char) → Option (List (List Char))
  | [] => none
  | l :: rest =>
    let t := trimJS l
    if fieldTest p t then some (t :: takeSectionLines rest)
    else extractFieldGo p rest

def extractField (output : List Char) (fieldName : String) : Option (List Char) :=
  match fieldPattern fieldName with
  | none => none
  | some p =>
    match extractFieldGo p (splitNL output) with
    | none => none  -- field not found
    | some ls => some (trimJS (joinNL ls))

/-- The section bounds located by `replaceField`: the first line matching the
    field pattern, and the first later line matching a section header (or the
    number of lines when none follows). -/
def replaceBounds (fieldName : String) (lines : List (List Char)) : Option (Nat × Nat) :=
  match fieldPattern fieldName with
  | none => none
  | some p =>
    match firstMatchIdx (fieldTest p) 0 lines with
    | none => none
    | some s =>
      match firstMatchIdx isNewSectionTest (s + 1) (lines.drop (s + 1)) with
      | some e => some (s, e)
      | none => some (s, lines.length)

/-- `replaceField(output, fieldName, newContent)`. -/
def replaceField (output : List Char) (fieldName : String) (newContent : List Char) : List Char :=
  match replaceBounds fieldName (splitNL output) with
  | none => output  -- unknown field or section not found: return unchanged
  | some (s, e) =>
    let lines := splitNL output
    -- before + newContent + blank separator line + after
    joinNL (lines.take s ++ newContent :: [] :: lines.drop e)

end SW

namespace SW

/-! ### Concrete fixtures used by the claim theorems -/

/-- The error-counter pairing invariant of a checker contribution. -/
def DOk (d : Delta) : Prop := d.2.errors = errCount d.1

/-- Three SMS drafts with 3, 1 and 2 alcohol-mention ERRORs respectively. -/
def mfDraftA : List Char :=
  "2.1. СМС — АНОНС\nВариант 1: вино\nВариант 2: вино\nВариант 3: вино".data
def mfDraftB : List Char := "2.1. СМС — АНОНС\nВариант 1: вино".data
def mfDraftC : List Char := "2.1. СМС — АНОНС\nВариант 1: вино\nВариант 2: вино".data

/-- A draft with a single FORBIDDEN_NAPITOK ERROR (constant signature). -/
def mfDraftN : List Char := "напиток".data

/-- Generator oracle producing ERROR counts [3, 1, 2] over three attempts. -/
def genABC : Nat → Except String (List Char)
  | 1 => .ok mfDraftA
  | 2 => .ok mfDraftB
  | _ => .ok mfDraftC

/-- Generator oracle whose drafts always carry the same violation signature. -/
def genSameSig : Nat → Except String (List Char) := fun _ => .ok mfDraftN

/-- Generator oracle failing on every call. -/
def genAllFail : Nat → Except String (List Char) := fun _ => .error "network"

/-- Generator oracle failing only on attempt 2. -/
def genFailAt2 : Nat → Except String (List Char)
  | 1 => .ok mfDraftN
  | 2 => .error "boom"
  | _ => .ok mfDraftA

/-- A push section whose title is 17 astral-plane emoji: 17 code points
    (= 17 grapheme clusters) but 34 UTF-16 code units. -/
def emojiPushDraft : List Char :=
  "1.1. ПУШ — АНОНС\nВариант 1\nЗаголовок: ".data ++ List.replicate 17 (Char.ofNat 0x1F600)

/-- Email drafts with 3, 1 and 2 ERROR-severity violations respectively
    (variant-count shortfalls under the default required counts). -/
def emDraftA : List Char := "ТЕМА".data
def emDraftB : List Char :=
  "ТЕМА\n1. Один\n2. Два\n3. Три\nПРЕХЕДЕР\n1. Четыре\n2. Пять\n3. Шесть".data
def emDraftC : List Char := "ТЕМА\n1. Один\n2. Два\n3. Три".data

/-- Generator oracle producing email ERROR counts [3, 1, 2] over three
    attempts. -/
def genEmailABC : Nat → Except String (List Char)
  | 1 => .ok emDraftA
  | 2 => .ok emDraftB
  | _ => .ok emDraftC

/-- Generator oracle whose email drafts always carry the same violation
    signature (every call yields the same invalid draft). -/
def genEmailConst : Nat → Except String (List Char) := fun _ => .ok emDraftA

/-- A two-section email document for the surgical-replacement witness. -/
def surgicalDoc : List Char :=
  "ТЕМА — 3 варианта\n1. а\n2. б\nПРЕХЕДЕР — 3 варианта\n1. в".data

end SW


namespace SW

/-! ## Shared lemmas -/

theorem countCode_append (c : String) (a b : List Violation) :
    countCode c (a ++ b) = countCode c a + countCode c b := by
  simp [countCode, List.filter_append]

theorem errCount_append (a b : List Violation) :
    errCount (a ++ b) = errCount a + errCount b := by
  simp [errCount, List.filter_append]

theorem countCode_singleton_ne (c : String) (v : Violation) (h : v.code ≠ c) :
    countCode c [v] = 0 := by
  have hb : (v.code == c) = false := beq_eq_false_iff_ne.mpr h
  simp [countCode, List.filter, hb]

theorem countCode_ite_nil (c : String) (p : Prop) [Decidable p] (l : List Violation) :
    countCode c (if p then l else []) ≤ countCode c l := by
  split <;> simp [countCode]

end SW

namespace SW

theorem countCode_eq_zero_of (c : String) (l : List Violation)
    (h : ∀ v ∈ l, v.code ≠ c) : countCode c l = 0 := by
  rw [countCode, List.length_eq_zero]
  refine List.filter_eq_nil_iff.mpr (fun v hv => ?_)
  simpa using h v hv

theorem kupitCheck_count (text : List Char) (loc : String) :
    countCode "FORBIDDEN_KUPIT" (kupitCheck text loc) ≤ 1 := by
  unfold kupitCheck
  by_cases h1 : hasSubstr (lowerStr text) "купи".data <;>
    simp only [h1, if_true, if_false, Bool.false_eq_true, ite_false, ite_true]
  · by_cases h2 : mSearch reVVinotek (lowerStr (substringJS text
      ((indexOfSub (lowerStr text) "купи".data).getD 0 - 20)
      ((indexOfSub (lowerStr text) "купи".data).getD 0 + 30))) <;> simp [h2, countCode]
  · simp [countCode]

theorem kupitCheck_count_iff (text : List Char) (loc : String) :
    countCode "FORBIDDEN_KUPIT" (kupitCheck text loc) = 1 ↔
      (hasSubstr (lowerStr text) "купи".data = true ∧
       mSearch reVVinotek (lowerStr (substringJS text
         ((indexOfSub (lowerStr text) "купи".data).getD 0 - 20)
         ((indexOfSub (lowerStr text) "купи".data).getD 0 + 30))) = false) := by
  unfold kupitCheck
  by_cases h1 : hasSubstr (lowerStr text) "купи".data <;>
    simp only [h1, if_true, if_false, Bool.false_eq_true, ite_false, ite_true]
  · by_cases h2 : mSearch reVVinotek (lowerStr (substringJS text
      ((indexOfSub (lowerStr text) "купи".data).getD 0 - 20)
      ((indexOfSub (lowerStr text) "купи".data).getD 0 + 30))) <;> simp [h2, countCode]
  · simp [countCode, h1]

theorem degustatsiyaCheck_kupit_zero (text : List Char) (loc : String) :
    countCode "FORBIDDEN_KUPIT" (degustatsiyaCheck text loc) = 0 := by
  apply countCode_eq_zero_of
  intro v hv
  unfold degustatsiyaCheck at hv
  by_cases h1 : hasSubstr (lowerStr text) "дегустац".data <;> simp only [h1] at hv
  · by_cases h2 : mSearch reMeropriyatie (lowerStr text) <;> simp_all
  · simp_all

theorem pokupkaCheck_kupit_zero (text : List Char) (loc : String) :
    countCode "FORBIDDEN_KUPIT" (pokupkaCheck text loc) = 0 := by
  apply countCode_eq_zero_of
  intro v hv
  unfold pokupkaCheck at hv
  rcases h : mFind rePokupka (lowerStr text) with _ | ⟨i, j⟩ <;> simp only [h] at hv
  · simp_all
  · split_ifs at hv <;> simp_all

theorem buketCheck_kupit_zero (text : List Char) (loc : String) :
    countCode "FORBIDDEN_KUPIT" (buketCheck text loc) = 0 := by
  apply countCode_eq_zero_of
  intro v hv
  unfold buketCheck at hv
  split_ifs at hv <;> simp_all

theorem poslevkusieCheck_kupit_zero (text : List Char) (loc : String) :
    countCode "FORBIDDEN_KUPIT" (poslevkusieCheck text loc) = 0 := by
  apply countCode_eq_zero_of
  intro v hv
  unfold poslevkusieCheck at hv
  split_ifs at hv <;> simp_all

theorem checkForbiddenWords_kupit_count (text : List Char) (loc : String) :
    countCode "FORBIDDEN_KUPIT" (checkForbiddenWords text loc) =
      (if text.isEmpty then 0 else countCode "FORBIDDEN_KUPIT" (kupitCheck text loc)) := by
  unfold checkForbiddenWords
  split_ifs with h
  · simp [countCode]
  · simp [countCode_append, degustatsiyaCheck_kupit_zero, pokupkaCheck_kupit_zero,
          buketCheck_kupit_zero, poslevkusieCheck_kupit_zero]

/-! ## Claim theorems -/

/-- C5: the repair-scope resolver maps the three cross-field codes to
    `{field:"all", requiresFullContext:true}`, other codes with a known
    location to `{field: location, requiresFullContext:false}`, anything
    else to `{field:"all", requiresFullContext:true}`; and in every returned
    scope, `requiresFullContext = true` holds exactly when `field = "all"`. -/
theorem claim_C5_repair_scope_classification (v : Violation) :
    (determineRepairScope v =
      if fullContextCodes.contains v.code then
        { field := "all", requiresFullContext := true }
      else if validLocations.contains v.location then
        { field := v.location, requiresFullContext := false }
      else { field := "all", requiresFullContext := true }) ∧
    ((determineRepairScope v).requiresFullContext = true ↔
      (determineRepairScope v).field = "all") := by
  refine ⟨rfl, ?_⟩
  unfold determineRepairScope
  split_ifs with h1 h2
  · simp
  · simp only [iff_false, Bool.false_eq_true, false_iff]
    intro heq
    rw [heq] at h2
    simp [validLocations] at h2
  · simp

/-- C9: the draft `"ТЕМА\n1. Раз два три\nПРЕХЕДЕР\n1. Раз два три"` yields
    exactly one TRIGRAM_DUPLICATION violation; its location names both
    subject and preheader and its evidence contains the shared normalized
    3-gram "раз два три" (the cross-field check runs once per unordered
    pair). -/
theorem claim_C9_trigram_scenario :
    ((validateEmail "ТЕМА\n1. Раз два три\nПРЕХЕДЕР\n1. Раз два три".data () none).violations.filter
        (fun v => v.code == "TRIGRAM_DUPLICATION")) =
      [{ code := "TRIGRAM_DUPLICATION", severity := .ERROR,
         message := "Дублирование 3+ слов между subject и preheader",
         location := "subject <-> preheader",
         evidence := "раз два три",
         suggestedFix := some "Переформулируйте один из фрагментов" }] ∧
    hasSubstr "раз два три".data "раз два три".data = true := by
  constructor
  · decide
  · decide

/-- C10: the «купить» check emits at most one FORBIDDEN_KUPIT violation;
    it is emitted exactly when the text contains «купи» and the allowed
    phrase «в винотеке» does not occur in the window from 20 characters
    before to 30 characters after the first occurrence of «купи»; in
    particular, a text whose first occurrence is «купить в винотеке» but
    which later contains a bare «купить» produces no FORBIDDEN_KUPIT
    violation. -/
theorem claim_C10_kupit_window (text : List Char) (loc : String) :
    (countCode "FORBIDDEN_KUPIT" (checkForbiddenWords text loc) ≤ 1) ∧
    (countCode "FORBIDDEN_KUPIT" (checkForbiddenWords text loc) = 1 ↔
      (text.isEmpty = false ∧
       hasSubstr (lowerStr text) "купи".data = true ∧
       mSearch reVVinotek (lowerStr (substringJS text
         ((indexOfSub (lowerStr text) "купи".data).getD 0 - 20)
         ((indexOfSub (lowerStr text) "купи".data).getD 0 + 30))) = false)) ∧
    countCode "FORBIDDEN_KUPIT"
      (checkForbiddenWords "Вино можно купить в винотеке, а потом снова купить".data "subject") = 0 ∧
    hasSubstr (lowerStr ("Вино можно купить в винотеке, а потом снова купить".data.drop 41))
      "купить".data = true := by
  refine ⟨?_, ?_, by decide, by decide⟩
  · rw [checkForbiddenWords_kupit_count]
    split_ifs
    · simp
    · exact kupitCheck_count text loc
  · rw [checkForbiddenWords_kupit_count]
    split_ifs with h
    · simp [h]
    · rw [kupitCheck_count_iff]
      simp [h]

end SW

namespace SW

/-! ### The error-counter pairing invariant of the multiformat validator -/

theorem DOk_dZero : DOk dZero := rfl

theorem DOk_dAdd {a b : Delta} (ha : DOk a) (hb : DOk b) : DOk (dAdd a b) := by
  unfold DOk dAdd at *
  simp [errCount_append, ha, hb]

theorem DOk_foldl {l : List Delta} (h : ∀ d ∈ l, DOk d) :
    ∀ acc, DOk acc → DOk (l.foldl dAdd acc) := by
  induction l with
  | nil => intro acc hacc; simpa using hacc
  | cons d t ih =>
    intro acc hacc
    simp only [List.foldl_cons]
    exact ih (fun x hx => h x (List.mem_cons_of_mem _ hx)) _
      (DOk_dAdd hacc (h d (List.mem_cons_self _ _)))

theorem DOk_dSum {l : List Delta} (h : ∀ d ∈ l, DOk d) : DOk (dSum l) :=
  DOk_foldl h _ DOk_dZero

theorem DOk_perVariant {f : Nat → MVariant → Delta}
    (h : ∀ i v, DOk (f i v)) (vs : List MVariant) : DOk (perVariant f vs) := by
  apply DOk_dSum
  intro d hd
  simp only [List.mem_map] at hd
  obtain ⟨p, _, rfl⟩ := hd
  exact h p.1 p.2

theorem pushLimitDelta_ok (s : String) (i : Nat) (v : MVariant) :
    DOk (pushLimitDelta s i v) := by
  unfold DOk pushLimitDelta dAdd
  split_ifs <;> simp_all [errCount]

theorem smsLimitDelta_ok (s : String) (i : Nat) (v : MVariant) :
    DOk (smsLimitDelta s i v) := by
  unfold DOk smsLimitDelta
  split_ifs <;> simp_all [errCount]

theorem yandexLimitDelta_ok (i : Nat) (v : MVariant) :
    DOk (yandexLimitDelta i v) := by
  unfold DOk yandexLimitDelta dAdd
  split_ifs <;> simp_all [errCount]

theorem onboardingLimitDelta_ok (i : Nat) (v : MVariant) :
    DOk (onboardingLimitDelta i v) := by
  unfold DOk onboardingLimitDelta dAdd
  split_ifs <;> simp_all [errCount]

theorem landingLimitDelta_ok (i : Nat) (v : MVariant) :
    DOk (landingLimitDelta i v) := by
  unfold DOk landingLimitDelta dAdd dZero
  split_ifs <;> simp_all [errCount]

theorem singleTextLimitDelta_ok (c m s : String) (lim i : Nat) (v : MVariant) :
    DOk (singleTextLimitDelta c m s lim i v) := by
  unfold DOk singleTextLimitDelta
  split_ifs <;> simp_all [errCount]

theorem smsAlcoholDelta_ok (s : String) (i : Nat) (v : MVariant) :
    DOk (smsAlcoholDelta s i v) := by
  unfold DOk smsAlcoholDelta
  rcases h : smsForbiddenAlcohol.find? (fun word => hasSubstr (lowerStr (jsGet v.text)) word.data) with _ | w <;>
    simp [h, errCount]

theorem stickyTimerDelta_ok (i : Nat) (v : MVariant) :
    DOk (stickyTimerDelta i v) := by
  unfold DOk stickyTimerDelta
  split_ifs <;> simp_all [errCount]

set_option maxHeartbeats 1000000 in
theorem checkLengthLimits_ok (s : MSections) : DOk (checkLengthLimits s) := by
  apply DOk_dSum
  intro d hd
  simp only [checkLengthLimits, List.mem_cons, List.not_mem_nil, or_false] at hd
  rcases hd with h|h|h|h|h|h|h|h|h|h|h|h <;> subst h
  exacts [DOk_perVariant (pushLimitDelta_ok _) _,
          DOk_perVariant (pushLimitDelta_ok _) _,
          DOk_perVariant (pushLimitDelta_ok _) _,
          DOk_perVariant (smsLimitDelta_ok _) _,
          DOk_perVariant (smsLimitDelta_ok _) _,
          DOk_perVariant (smsLimitDelta_ok _) _,
          DOk_perVariant yandexLimitDelta_ok _,
          DOk_perVariant onboardingLimitDelta_ok _,
          DOk_perVariant landingLimitDelta_ok _,
          DOk_perVariant (singleTextLimitDelta_ok _ _ _ _) _,
          DOk_perVariant (singleTextLimitDelta_ok _ _ _ _) _,
          DOk_perVariant (singleTextLimitDelta_ok _ _ _ _) _]

theorem checkSMSAlcohol_ok (s : MSections) : DOk (checkSMSAlcoholRestrictions s) := by
  apply DOk_dSum
  intro d hd
  simp only [checkSMSAlcoholRestrictions, List.mem_cons, List.not_mem_nil, or_false] at hd
  rcases hd with h|h|h <;> subst h
  exacts [DOk_perVariant (smsAlcoholDelta_ok _) _,
          DOk_perVariant (smsAlcoholDelta_ok _) _,
          DOk_perVariant (smsAlcoholDelta_ok _) _]

theorem checkStickyTimerFormat_ok (s : MSections) : DOk (checkStickyTimerFormat s) :=
  DOk_perVariant stickyTimerDelta_ok _

theorem checkAbbreviations_ok (content : List Char) : DOk (checkAbbreviations content) := by
  unfold checkAbbreviations
  refine DOk_dAdd (by simp [DOk, errCount]) ?_
  apply DOk_dSum
  intro d hd
  simp only [List.mem_map] at hd
  obtain ⟨pat, _, rfl⟩ := hd
  rcases h : searchBoundedLitIdx pat.data content with _ | i <;> simp [h, DOk, errCount, dZero]

theorem checkForbiddenNapitok_ok (content : List Char) : DOk (checkForbiddenNapitok content) := by
  unfold checkForbiddenNapitok
  refine DOk_dAdd (by simp [DOk, errCount]) ?_
  split_ifs <;> simp [DOk, errCount, dZero]

theorem checkCTARules_ok (content : List Char) : DOk (checkCTARules content) := by
  unfold checkCTARules
  refine DOk_dAdd (by simp [DOk, errCount]) ?_
  split_ifs <;> simp [DOk, errCount, dZero]

theorem checkMessageConsistency_ok (s : MSections) : DOk (checkMessageConsistency s) := by
  unfold checkMessageConsistency
  refine DOk_dAdd (by simp [DOk, errCount]) ?_
  split_ifs <;> simp [DOk, errCount, dZero]

theorem validateMultiformat_errors (content : List Char) :
    (validateMultiformat content ()).stats.errors = errCount (validateMultiformat content ()).violations := by
  unfold validateMultiformat
  exact DOk_dSum (by
    intro d hd
    simp only [List.mem_cons, List.not_mem_nil, or_false] at hd
    rcases hd with h|h|h|h|h|h|h <;> subst h
    exacts [checkLengthLimits_ok _, checkSMSAlcohol_ok _, checkStickyTimerFormat_ok _,
            checkAbbreviations_ok _, checkForbiddenNapitok_ok _, checkCTARules_ok _,
            checkMessageConsistency_ok _])


/-- C4: for both validators, the verdict is true exactly when the produced
    violation list contains zero ERROR-severity violations (WARNINGs and
    INFOs never block validity).  For the multiformat validator this rests on
    the pairing of every ERROR push with an `errors` counter increment. -/
theorem claim_C4_isValid_iff_no_errors (output : List Char)
    (spec : Option VariantCounts) (content : List Char) :
    ((validateEmail output () spec).valid = true ↔
      errCount (validateEmail output () spec).violations = 0) ∧
    ((validateMultiformat content ()).isValid = true ↔
      errCount (validateMultiformat content ()).violations = 0) := by
  constructor
  · unfold validateEmail
    rcases h : parseEmailOutput output with _ | st <;> simp [h, errCount]
  · have h := validateMultiformat_errors content
    revert h
    unfold validateMultiformat
    intro h
    simp only [MVResult.isValid] at *
    rw [← h]
    simp

end SW

namespace SW

/-! ### Code inventories of the email checkers -/
theorem variantCount_codes (st : EStructure) (req : VariantCounts) :
    ∀ v ∈ variantCountViolations st req, v.code = "VARIANT_COUNT_INSUFFICIENT" := by
  intro v hv
  unfold variantCountViolations at hv
  simp only [List.mem_append] at hv
  rcases hv with (h|h)|h <;> split_ifs at h <;> simp_all

theorem checkCharLimit_codes (t : List Char) (n : Nat) (loc : String) :
    ∀ v ∈ checkCharLimit t n loc, v.code = "CHAR_LIMIT_EXCEEDED" := by
  intro v hv
  unfold checkCharLimit at hv
  split_ifs at hv <;> simp_all

theorem checkEmojis_codes (t : List Char) (loc : String) :
    ∀ v ∈ checkEmojis t loc, v.code = "EMOJI_FORBIDDEN" := by
  intro v hv
  unfold checkEmojis at hv
  split_ifs at hv <;> simp_all

theorem checkForbiddenWords_codes (t : List Char) (loc : String) :
    ∀ v ∈ checkForbiddenWords t loc, v.code ≠ "PARSE_FAILED" := by
  intro v hv
  unfold checkForbiddenWords at hv
  split_ifs at hv
  · simp_all
  · simp only [List.mem_append] at hv
    rcases hv with (((h|h)|h)|h)|h
    · simp only [degustatsiyaCheck] at h
      split_ifs at h <;> simp_all
    · simp only [kupitCheck] at h
      split_ifs at h <;> simp_all
    · simp only [pokupkaCheck] at h
      rcases hf : mFind rePokupka (lowerStr t) with _ | p <;> simp only [hf] at h
      · simp_all
      · split_ifs at h <;> simp_all
    · simp only [buketCheck] at h
      split_ifs at h <;> simp_all
    · simp only [poslevkusieCheck] at h
      split_ifs at h <;> simp_all

theorem checkBannedCliches_codes (t : List Char) (loc : String) :
    ∀ v ∈ checkBannedCliches t loc, v.code = "BANNED_CLICHE" := by
  intro v hv
  unfold checkBannedCliches at hv
  split_ifs at hv
  · simp_all
  · simp only [List.mem_flatMap] at hv
    obtain ⟨c, _, hc⟩ := hv
    split_ifs at hc <;> simp_all

theorem checkGeographyLabels_codes (t : List Char) (loc : String) :
    ∀ v ∈ checkGeographyLabels t loc, v.code = "GEOGRAPHY_LABEL_MISUSE" := by
  intro v hv
  unfold checkGeographyLabels at hv
  split_ifs at hv
  · simp_all
  · simp only [List.mem_flatMap] at hv
    obtain ⟨r, _, p, _, hp⟩ := hv
    split_ifs at hp <;> simp_all

theorem trigramPair_codes (parts : List (String × List Char)) :
    ∀ v ∈ trigramPairViolations parts, v.code = "TRIGRAM_DUPLICATION" := by
  induction parts with
  | nil => intro v hv; simp [trigramPairViolations] at hv
  | cons p rest ih =>
    intro v hv
    rw [trigramPairViolations] at hv
    obtain ⟨n, t⟩ := p
    simp only [List.mem_append, List.mem_flatMap] at hv
    rcases hv with ⟨q, _, hq⟩ | h
    · split_ifs at hq <;> simp_all
    · exact ih v h

theorem exactEquality_codes (st : EStructure) :
    ∀ v ∈ exactEqualityViolations st, v.code = "EXACT_EQUALITY" := by
  intro v hv
  unfold exactEqualityViolations at hv
  simp only [List.mem_append, List.mem_flatMap] at hv
  rcases hv with ⟨a, _, b, _, hb⟩ | ⟨a, _, b, _, hb⟩ <;>
    split_ifs at hb <;> simp_all

theorem blockLength_codes (blocks : List EBlock) :
    ∀ v ∈ blockLengthViolations blocks, v.code = "BLOCK_TOO_LONG" := by
  intro v hv
  unfold blockLengthViolations at hv
  simp only [List.mem_flatten, List.mem_map] at hv
  obtain ⟨l, ⟨bi, _, rfl⟩, hl⟩ := hv
  split_ifs at hl <;> simp_all

theorem servicePhrase_codes (output : List Char) :
    ∀ v ∈ servicePhraseViolations output, v.code = "SERVICE_PHRASE_DETECTED" := by
  intro v hv
  unfold servicePhraseViolations at hv
  simp only [List.mem_flatMap] at hv
  obtain ⟨p, _, hp⟩ := hv
  rcases hf : mFind p (lowerStr output) with _ | q <;> simp only [hf] at hp
  · simp_all
  · split_ifs at hp <;> simp_all

theorem emailFieldChecks_codes (t : List Char) (lim : Option Nat) (loc : String) :
    ∀ v ∈ emailFieldChecks t lim loc, v.code ≠ "PARSE_FAILED" := by
  intro v hv
  unfold emailFieldChecks at hv
  simp only [List.mem_append] at hv
  rcases hv with (((h|h)|h)|h)|h
  · rcases lim with _ | n
    · simp_all
    · have := checkCharLimit_codes t n loc v (by simpa using h)
      simp_all
  · have := checkEmojis_codes t loc v h; simp_all
  · exact checkForbiddenWords_codes t loc v h
  · have := checkBannedCliches_codes t loc v h; simp_all
  · have := checkGeographyLabels_codes t loc v h; simp_all

theorem parse_some_of_ne (output : List Char) (h : output ≠ []) :
    ∃ st, parseEmailOutput output = some st := by
  unfold parseEmailOutput
  rw [if_neg (by simpa using h)]
  exact ⟨_, rfl⟩

theorem emailViolations_no_pf (st : EStructure) (req : VariantCounts) (output : List Char) :
    ∀ v ∈ emailViolations st req output, v.code ≠ "PARSE_FAILED" := by
  intro v hv
  unfold emailViolations at hv
  simp only [List.append_assoc] at hv
  rcases List.mem_append.mp hv with h | hv
  · have := variantCount_codes st req v h; simp [this]
  rcases List.mem_append.mp hv with h | hv
  · obtain ⟨s, _, hs⟩ := List.mem_flatMap.mp h
    exact emailFieldChecks_codes _ _ _ v hs
  rcases List.mem_append.mp hv with h | hv
  · obtain ⟨s, _, hs⟩ := List.mem_flatMap.mp h
    exact emailFieldChecks_codes _ _ _ v hs
  rcases List.mem_append.mp hv with h | hv
  · obtain ⟨s, _, hs⟩ := List.mem_flatMap.mp h
    exact emailFieldChecks_codes _ _ _ v hs
  rcases List.mem_append.mp hv with h | hv
  · obtain ⟨s, _, hs⟩ := List.mem_flatMap.mp h
    exact emailFieldChecks_codes _ _ _ v hs
  rcases List.mem_append.mp hv with h | hv
  · exact checkForbiddenWords_codes _ _ v h
  rcases List.mem_append.mp hv with h | hv
  · have := checkBannedCliches_codes _ _ v h; simp [this]
  rcases List.mem_append.mp hv with h | hv
  · have := checkGeographyLabels_codes _ _ v h; simp [this]
  rcases List.mem_append.mp hv with h | hv
  · obtain ⟨s, _, hs⟩ := List.mem_flatMap.mp h
    exact checkForbiddenWords_codes _ _ v hs
  rcases List.mem_append.mp hv with h | hv
  · have := trigramPair_codes _ v h; simp [this]
  rcases List.mem_append.mp hv with h | hv
  · have := exactEquality_codes _ v h; simp [this]
  rcases List.mem_append.mp hv with h | hv
  · have := blockLength_codes _ v h; simp [this]
  · have := servicePhrase_codes _ v hv; simp [this]


/-- C3 (amended): structure extraction returns `null` only for the empty
    input, and in that case the validator reports a single PARSE_FAILED
    ERROR and runs no other checks; for every non-empty draft — however
    degenerate — extraction yields a (possibly empty) structure and the
    validator never emits PARSE_FAILED, so the text-only checks run against
    the extracted fields rather than jointly with a PARSE_FAILED ERROR. -/
theorem claim_C3_parse_failed_semantics (output : List Char) (spec : Option VariantCounts) :
    (validateEmail [] () spec =
      { valid := false,
        violations := [{ code := "PARSE_FAILED", severity := .ERROR,
                         message := "Не удалось распарсить структуру email",
                         location := "output", evidence := "" }],
        structure' := none }) ∧
    (output ≠ [] → countCode "PARSE_FAILED" (validateEmail output () spec).violations = 0) := by
  refine ⟨rfl, fun h => ?_⟩
  obtain ⟨st, hst⟩ := parse_some_of_ne output h
  unfold validateEmail
  simp only [hst]
  exact countCode_eq_zero_of _ _ (emailViolations_no_pf st _ output)

/-- C3 counterexample: the draft "послевкусие" has no extractable structure
    (the parse result is the empty structure), yet the validator emits no
    PARSE_FAILED violation and no lexical-ban violation against the raw text
    even though the raw text contains the banned stem "послевкус"; it only
    reports the three variant-count shortfalls.  This refutes the claim that
    a structurally degenerate input still gets text-only checks on the raw
    text plus a PARSE_FAILED ERROR. -/
theorem claim_C3_counterexample :
    parseEmailOutput "послевкусие".data = some ({} : EStructure) ∧
    codesOf (validateEmail "послевкусие".data () none).violations =
      ["VARIANT_COUNT_INSUFFICIENT", "VARIANT_COUNT_INSUFFICIENT",
       "VARIANT_COUNT_INSUFFICIENT"] ∧
    countCode "PARSE_FAILED" (validateEmail "послевкусие".data () none).violations = 0 ∧
    countCode "FORBIDDEN_POSLEVKUSIE" (validateEmail "послевкусие".data () none).violations = 0 ∧
    hasSubstr (lowerStr "послевкусие".data) "послевкус".data = true := by
  refine ⟨by decide, by decide, by decide, by decide, by decide⟩

/-- Witness for C3: the amended theorem applied at the non-empty draft
    "ТЕМА". -/
theorem claim_C3_witness :
    "ТЕМА".data ≠ ([] : List Char) ∧
    countCode "PARSE_FAILED" (validateEmail "ТЕМА".data () none).violations = 0 :=
  ⟨by decide, (claim_C3_parse_failed_semantics "ТЕМА".data none).2 (by decide)⟩

end SW

namespace SW

/-! ### Orchestrator claim theorems -/

/-- Shared helper: when all three generations succeed and none of the three
    drafts validates, the session returns the third (last) attempt's draft
    and violations with the full three-attempt history. -/
theorem orchestratorExhausted (gen : Nat → Except String (List Char))
    (d1 d2 d3 : List Char)
    (h1 : gen 1 = .ok d1) (h2 : gen 2 = .ok d2) (h3 : gen 3 = .ok d3)
    (hv1 : (validateMultiformat d1 ()).isValid = false)
    (hv2 : (validateMultiformat d2 ()).isValid = false)
    (hv3 : (validateMultiformat d3 ()).isValid = false) :
    generateMultiformat gen true true true = .ok
      { success := false, content := d3,
        violations := (validateMultiformat d3 ()).violations,
        attempts := 3,
        attemptHistory :=
          [{ attempt := 1, draft := d1, validation := validateMultiformat d1 () },
           { attempt := 2, draft := d2, validation := validateMultiformat d2 () },
           { attempt := 3, draft := d3, validation := validateMultiformat d3 () }] } := by
  unfold generateMultiformat
  simp [h1, h2, h3, hv1, hv2, hv3, repairLoopMF]

/-- Specification of the best-attempt fold: the fold result is a minimum
    of the accumulator and the list, and either it is the accumulator or it
    occurs in the list strictly below the accumulator and every element
    before it (so ties are broken by the earliest occurrence). -/
theorem bestFold_spec (l : List EAttemptRec) :
    ∀ (best : EAttemptRec),
      errCount ((l.foldl (fun best current =>
          if errCount current.validation.violations < errCount best.validation.violations then current
          else best) best).validation.violations) ≤ errCount best.validation.violations ∧
      (∀ x ∈ l, errCount ((l.foldl (fun best current =>
          if errCount current.validation.violations < errCount best.validation.violations then current
          else best) best).validation.violations) ≤ errCount x.validation.violations) ∧
      ((l.foldl (fun best current =>
          if errCount current.validation.violations < errCount best.validation.violations then current
          else best) best) = best ∨
        ∃ l1 l2, l = l1 ++ (l.foldl (fun best current =>
            if errCount current.validation.violations < errCount best.validation.violations then current
            else best) best) :: l2 ∧
          errCount ((l.foldl (fun best current =>
            if errCount current.validation.violations < errCount best.validation.violations then current
            else best) best).validation.violations) < errCount best.validation.violations ∧
          ∀ x ∈ l1, errCount ((l.foldl (fun best current =>
            if errCount current.validation.violations < errCount best.validation.violations then current
            else best) best).validation.violations) < errCount x.validation.violations) := by
  induction l with
  | nil =>
    intro best
    exact ⟨le_refl _, by simp, Or.inl rfl⟩
  | cons a l' ih =>
    intro best
    simp only [List.foldl_cons]
    by_cases hc : errCount a.validation.violations < errCount best.validation.violations
    · simp only [hc, if_true, ite_true]
      obtain ⟨g1, g2, g3⟩ := ih a
      refine ⟨by omega, ?_, ?_⟩
      · intro x hx
        rcases List.mem_cons.mp hx with rfl | hx
        · exact g1
        · exact g2 x hx
      · rcases g3 with heq | ⟨l1, l2, hdec, hlt, hall⟩
        · right
          refine ⟨[], l', by rw [heq, List.nil_append], ?_, by simp⟩
          rw [heq]; omega
        · right
          refine ⟨a :: l1, l2, by rw [List.cons_append]; exact congrArg (List.cons a) hdec,
            by omega, ?_⟩
          intro x hx
          rcases List.mem_cons.mp hx with rfl | hx
          · omega
          · exact hall x hx
    · simp only [hc, if_false, ite_false]
      obtain ⟨g1, g2, g3⟩ := ih best
      refine ⟨g1, ?_, ?_⟩
      · intro x hx
        rcases List.mem_cons.mp hx with rfl | hx
        · omega
        · exact g2 x hx
      · rcases g3 with heq | ⟨l1, l2, hdec, hlt, hall⟩
        · exact Or.inl heq
        · right
          refine ⟨a :: l1, l2, by rw [List.cons_append]; exact congrArg (List.cons a) hdec,
            hlt, ?_⟩
          intro x hx
          rcases List.mem_cons.mp hx with rfl | hx
          · omega
          · exact hall x hx

/-- Shared helper for the email orchestrator: when all three generations
    succeed and none of the three drafts validates, the session falls
    through to the after-loop best-attempt block over the full
    three-attempt history. -/
theorem emailExhausted (gen : Nat → Except String (List Char))
    (req : Option VariantCounts) (d1 d2 d3 : List Char)
    (h1 : gen 1 = .ok d1) (h2 : gen 2 = .ok d2) (h3 : gen 3 = .ok d3)
    (hv1 : (validateEmail d1 () req).valid = false)
    (hv2 : (validateEmail d2 () req).valid = false)
    (hv3 : (validateEmail d3 () req).valid = false) :
    generateEmail gen true true true req = .ok (emailFinish
      [{ attempt := 1, draft := d1, validation := validateEmail d1 () req },
       { attempt := 2, draft := d2, validation := validateEmail d2 () req },
       { attempt := 3, draft := d3, validation := validateEmail d3 () req }]) := by
  unfold generateEmail
  simp [h1, h2, h3, hv1, hv2, hv3, repairLoopEmail]

/-- Shared helper for the email orchestrator: whatever loop budget remains
    (any `r + 2` iterations left on entry), when attempts 2 and 3 produce
    the same invalid draft — hence equal violation signatures — the
    signature comparison at attempt 3 breaks the loop and the session ends
    with `attempts = 3`. -/
theorem emailConstSigStops (gen : Nat → Except String (List Char))
    (req : Option VariantCounts) (r : Nat) (d0 d : List Char)
    (h2 : gen 2 = .ok d) (h3 : gen 3 = .ok d)
    (hv : (validateEmail d () req).valid = false) :
    (repairLoopEmail gen req (r + 2) 2 d0 (validateEmail d0 () req)
      [{ attempt := 1, draft := d0, validation := validateEmail d0 () req }]).attempts = 3 := by
  show (repairLoopEmail gen req (r + 1 + 1) 2 d0 (validateEmail d0 () req)
      [{ attempt := 1, draft := d0, validation := validateEmail d0 () req }]).attempts = 3
  simp [repairLoopEmail, h2, h3, hv, List.getLast?_concat, emailFinish]

/-- C1 (amended): the repository has two orchestrators. The email
    orchestrator (generateEmail.js) implements the claimed selection: on an
    exhausted session it returns the attempt with the fewest ERROR-severity
    violations across the whole history, ties broken by the earliest
    attempt (first conjunct: the reduce result is a minimum and everything
    before its earliest occurrence is strictly worse; second conjunct: the
    exhausted session surfaces that attempt's draft and violations with
    success = false). The multiformat orchestrator (generateMultiformat,
    the code cited by the claim) does not: it returns simply the last
    attempt produced (third conjunct). -/
theorem claim_C1_best_attempt_selection :
    (∀ (h : EAttemptRec) (t : List EAttemptRec),
      ∃ l1 l2, h :: t = l1 ++ bestAttemptReduce h t :: l2 ∧
        (∀ x ∈ h :: t,
          errCount (bestAttemptReduce h t).validation.violations ≤
            errCount x.validation.violations) ∧
        (∀ x ∈ l1,
          errCount (bestAttemptReduce h t).validation.violations <
            errCount x.validation.violations)) ∧
    (∀ (gen : Nat → Except String (List Char)) (req : Option VariantCounts)
       (d1 d2 d3 : List Char),
      gen 1 = .ok d1 → gen 2 = .ok d2 → gen 3 = .ok d3 →
      (validateEmail d1 () req).valid = false →
      (validateEmail d2 () req).valid = false →
      (validateEmail d3 () req).valid = false →
      (generateEmail gen true true true req).toOption.map
        (fun r => (r.success, r.content, r.violations, r.attempts)) =
      some (false,
        (bestAttemptReduce { attempt := 1, draft := d1, validation := validateEmail d1 () req }
          [{ attempt := 2, draft := d2, validation := validateEmail d2 () req },
           { attempt := 3, draft := d3, validation := validateEmail d3 () req }]).draft,
        (bestAttemptReduce { attempt := 1, draft := d1, validation := validateEmail d1 () req }
          [{ attempt := 2, draft := d2, validation := validateEmail d2 () req },
           { attempt := 3, draft := d3, validation := validateEmail d3 () req }]).validation.violations,
        3)) ∧
    (∀ (gen : Nat → Except String (List Char)) (d1 d2 d3 : List Char),
      gen 1 = .ok d1 → gen 2 = .ok d2 → gen 3 = .ok d3 →
      (validateMultiformat d1 ()).isValid = false →
      (validateMultiformat d2 ()).isValid = false →
      (validateMultiformat d3 ()).isValid = false →
      (generateMultiformat gen true true true).toOption.map
        (fun r => (r.success, r.content, r.violations, r.attempts)) =
      some (false, d3, (validateMultiformat d3 ()).violations, 3)) := by
  refine ⟨?_, ?_, ?_⟩
  · intro h t
    obtain ⟨g1, g2, g3⟩ := bestFold_spec (h :: t) h
    simp only [bestAttemptReduce]
    rcases g3 with heq | ⟨l1, l2, hdec, hlt, hall⟩
    · exact ⟨[], t, by rw [heq, List.nil_append], g2, by simp⟩
    · exact ⟨l1, l2, hdec, g2, hall⟩
  · intro gen req d1 d2 d3 h1 h2 h3 hv1 hv2 hv3
    rw [emailExhausted gen req d1 d2 d3 h1 h2 h3 hv1 hv2 hv3]
    rfl
  · intro gen d1 d2 d3 h1 h2 h3 hv1 hv2 hv3
    rw [orchestratorExhausted gen d1 d2 d3 h1 h2 h3 hv1 hv2 hv3]
    rfl

/-- C1 counterexample (against the original claim, whose cited code is
    generateMultiformat): for a multiformat session with per-attempt ERROR
    counts [3, 1, 2] the returned result is the last attempt — success =
    false, content = the third draft, 2 remaining ERRORs — even though the
    history's unique fewest-ERROR attempt is attempt 2 with a different
    draft. -/
theorem claim_C1_counterexample :
    (generateMultiformat genABC true true true).toOption.map
      (fun r => r.attemptHistory.map (fun a => errCount a.validation.violations)) =
      some [3, 1, 2] ∧
    (generateMultiformat genABC true true true).toOption.map
      (fun r => (r.success, r.content, errCount r.violations)) = some (false, mfDraftC, 2) ∧
    (generateMultiformat genABC true true true).toOption.map
      (fun r => (r.attemptHistory.filter
          (fun a => errCount a.validation.violations == 1)).map
        (fun a => (a.attempt, a.draft))) = some [(2, mfDraftB)] ∧
    mfDraftB ≠ mfDraftC := by
  exact ⟨by decide, by decide, by decide, by decide⟩

/-- Witness for C1: the email orchestrator run on drafts with ERROR counts
    [3, 1, 2] returns the reduce-selected best attempt, which is the second
    draft (count 1); the multiformat orchestrator on its [3, 1, 2] session
    returns the third draft. -/
theorem claim_C1_witness :
    (generateEmail genEmailABC true true true none).toOption.map
      (fun r => (r.success, r.content, r.violations, r.attempts)) =
      some (false,
        (bestAttemptReduce { attempt := 1, draft := emDraftA, validation := validateEmail emDraftA () none }
          [{ attempt := 2, draft := emDraftB, validation := validateEmail emDraftB () none },
           { attempt := 3, draft := emDraftC, validation := validateEmail emDraftC () none }]).draft,
        (bestAttemptReduce { attempt := 1, draft := emDraftA, validation := validateEmail emDraftA () none }
          [{ attempt := 2, draft := emDraftB, validation := validateEmail emDraftB () none },
           { attempt := 3, draft := emDraftC, validation := validateEmail emDraftC () none }]).validation.violations,
        3) ∧
    (bestAttemptReduce { attempt := 1, draft := emDraftA, validation := validateEmail emDraftA () none }
      [{ attempt := 2, draft := emDraftB, validation := validateEmail emDraftB () none },
       { attempt := 3, draft := emDraftC, validation := validateEmail emDraftC () none }]).draft = emDraftB ∧
    (generateMultiformat genABC true true true).toOption.map
      (fun r => (r.success, r.content, r.violations, r.attempts)) =
      some (false, mfDraftC, (validateMultiformat mfDraftC ()).violations, 3) :=
  ⟨claim_C1_best_attempt_selection.2.1 genEmailABC none emDraftA emDraftB emDraftC
     rfl rfl rfl (by decide) (by decide) (by decide),
   by decide,
   claim_C1_best_attempt_selection.2.2 genABC mfDraftA mfDraftB mfDraftC
     rfl rfl rfl (by decide) (by decide) (by decide)⟩

/-- C2 (amended): the repository has two orchestrators. The email
    orchestrator (generateEmail.js) implements the claimed convergence
    stop — comparing the new attempt's violation signature (the sorted
    `code:location` pairs, duplicates kept) with the previous attempt's
    from attempt 3 on — so with a generator repeating the same invalid
    draft the loop ends at attempt 3 whatever budget remains (first
    conjunct: any remaining budget `r + 2`; second conjunct: the top-level
    session, whose own budget is the hard-coded 3). The multiformat
    orchestrator (generateMultiformat, the code cited by the claim)
    computes no signatures and always spends its full budget (third
    conjunct). -/
theorem claim_C2_convergence_semantics :
    (∀ (r : Nat) (gen : Nat → Except String (List Char))
       (req : Option VariantCounts) (d0 d : List Char),
      gen 2 = .ok d → gen 3 = .ok d →
      (validateEmail d () req).valid = false →
      (repairLoopEmail gen req (r + 2) 2 d0 (validateEmail d0 () req)
        [{ attempt := 1, draft := d0, validation := validateEmail d0 () req }]).attempts = 3) ∧
    (∀ (gen : Nat → Except String (List Char)) (req : Option VariantCounts)
       (d0 d : List Char),
      gen 1 = .ok d0 → gen 2 = .ok d → gen 3 = .ok d →
      (validateEmail d0 () req).valid = false →
      (validateEmail d () req).valid = false →
      (generateEmail gen true true true req).toOption.map (fun x => x.attempts) = some 3) ∧
    (∀ (gen : Nat → Except String (List Char)) (d1 d2 d3 : List Char),
      gen 1 = .ok d1 → gen 2 = .ok d2 → gen 3 = .ok d3 →
      (validateMultiformat d1 ()).isValid = false →
      (validateMultiformat d2 ()).isValid = false →
      (validateMultiformat d3 ()).isValid = false →
      (generateMultiformat gen true true true).toOption.map
        (fun x => (x.attemptHistory.map (fun a => a.attempt), x.attempts)) =
      some ([1, 2, 3], 3)) := by
  refine ⟨?_, ?_, ?_⟩
  · intro r gen req d0 d h2 h3 hv
    exact emailConstSigStops gen req r d0 d h2 h3 hv
  · intro gen req d0 d h1 h2 h3 hv0 hv
    unfold generateEmail
    simp only [h1, Bool.not_true, Bool.false_eq_true, if_false, ite_false, ite_true, hv0]
    have := emailConstSigStops gen req 0 d0 d h2 h3 hv
    exact Option.map_eq_some'.mpr ⟨_, rfl, this⟩
  · intro gen d1 d2 d3 h1 h2 h3 hv1 hv2 hv3
    rw [orchestratorExhausted gen d1 d2 d3 h1 h2 h3 hv1 hv2 hv3]
    rfl

/-- C2 counterexample (against the original claim, whose cited code is
    generateMultiformat): running the multiformat repair loop with
    maxAttempts = 4 — one more than the hard-coded budget — on a generator
    whose drafts all carry the identical violation signature, the loop does
    not terminate at attempt 3: it runs attempts 2, 3 and 4, all four
    history entries carrying the same signature; and the top-level session
    likewise spends its whole budget after the attempt-1/attempt-2
    signature repeat. -/
theorem claim_C2_counterexample :
    (repairLoopMF genSameSig 3 2 4 mfDraftN (validateMultiformat mfDraftN ())
        [{ attempt := 1, draft := mfDraftN, validation := validateMultiformat mfDraftN () }]).attemptHistory.map
      (fun a => (a.attempt, generateViolationSignature a.validation.violations)) =
      [(1, "FORBIDDEN_NAPITOK:Общий текст"), (2, "FORBIDDEN_NAPITOK:Общий текст"),
       (3, "FORBIDDEN_NAPITOK:Общий текст"), (4, "FORBIDDEN_NAPITOK:Общий текст")] ∧
    (repairLoopMF genSameSig 3 2 4 mfDraftN (validateMultiformat mfDraftN ())
        [{ attempt := 1, draft := mfDraftN, validation := validateMultiformat mfDraftN () }]).attempts = 4 ∧
    (generateMultiformat genSameSig true true true).toOption.map
      (fun x => (x.attemptHistory.map
        (fun a => generateViolationSignature a.validation.violations), x.attempts)) =
      some (["FORBIDDEN_NAPITOK:Общий текст", "FORBIDDEN_NAPITOK:Общий текст",
             "FORBIDDEN_NAPITOK:Общий текст"], 3) := by
  exact ⟨by decide, by decide, by decide⟩

/-- Witness for C2: the email loop entered with budget 5 on a
    constant-draft generator still ends with attempts = 3; the top-level
    email session likewise; the multiformat session on a constant-signature
    generator runs attempts 1, 2, 3. -/
theorem claim_C2_witness :
    (repairLoopEmail genEmailConst none (3 + 2) 2 emDraftA (validateEmail emDraftA () none)
      [{ attempt := 1, draft := emDraftA, validation := validateEmail emDraftA () none }]).attempts = 3 ∧
    (generateEmail genEmailConst true true true none).toOption.map (fun x => x.attempts) = some 3 ∧
    (generateMultiformat genSameSig true true true).toOption.map
      (fun x => (x.attemptHistory.map (fun a => a.attempt), x.attempts)) = some ([1, 2, 3], 3) :=
  ⟨claim_C2_convergence_semantics.1 3 genEmailConst none emDraftA emDraftA rfl rfl (by decide),
   claim_C2_convergence_semantics.2.1 genEmailConst none emDraftA emDraftA
     rfl rfl rfl (by decide) (by decide),
   claim_C2_convergence_semantics.2.2 genSameSig mfDraftN mfDraftN mfDraftN
     rfl rfl rfl (by decide) (by decide) (by decide)⟩

/-- C7: a generation failure on attempt 1 aborts the session and surfaces
    as an error to the caller; a failure on a later attempt is caught, the
    failed attempt leaves no history entry, and the loop continues to the
    next attempt index (here attempt 3) without aborting the session. -/
theorem claim_C7_failure_semantics (gen : Nat → Except String (List Char))
    (e : String) (enable : Bool) (d1 d3 : List Char) :
    (gen 1 = .error e →
      generateMultiformat gen true true enable = .error ("Ошибка генерации: " ++ e)) ∧
    (gen 1 = .ok d1 → (validateMultiformat d1 ()).isValid = false →
     gen 2 = .error e → gen 3 = .ok d3 →
      ∃ r, generateMultiformat gen true true true = .ok r ∧
        r.attemptHistory.map (fun a => a.attempt) = [1, 3] ∧ r.attempts = 3) := by
  constructor
  · intro h
    unfold generateMultiformat
    simp [h]
  · intro h1 hv1 h2 h3
    unfold generateMultiformat
    simp only [h1, Bool.not_true, Bool.false_eq_true, if_false, ite_false, ite_true, hv1,
      Bool.or_self]
    unfold repairLoopMF
    simp only [h2]
    unfold repairLoopMF
    simp only [h3]
    by_cases hv3 : (validateMultiformat d3 ()).isValid <;> simp [hv3, repairLoopMF]

/-- Witness for C7: both failure modes at concrete generators — every call
    failing (fatal on attempt 1), and a failure only on attempt 2 (caught,
    loop continues to attempt 3). -/
theorem claim_C7_witness :
    generateMultiformat genAllFail true true true = .error ("Ошибка генерации: " ++ "network") ∧
    ∃ r, generateMultiformat genFailAt2 true true true = .ok r ∧
      r.attemptHistory.map (fun a => a.attempt) = [1, 3] ∧ r.attempts = 3 :=
  ⟨(claim_C7_failure_semantics genAllFail "network" true [] []).1 rfl,
   (claim_C7_failure_semantics genFailAt2 "boom" true mfDraftN mfDraftA).2
     rfl (by decide) rfl rfl⟩

/-- C8 counterexample: a push title of 17 astral-plane emoji has logical
    length 17 (code points, equal to grapheme clusters here), within the
    32-character limit, yet the multiformat validator emits a
    PUSH_TITLE_OVERLIMIT ERROR because its length checks count raw UTF-16
    code units (String.length = 34): the claimed logical-character counting
    does not hold for the multiformat validator's length bounds. -/
theorem claim_C8_counterexample :
    (parseGeneratedContent emojiPushDraft).push_announce.map (fun v => cpLen (jsGet v.title)) = [17] ∧
    (17 ≤ 32) ∧
    (parseGeneratedContent emojiPushDraft).push_announce.map (fun v => utf16Len (jsGet v.title)) = [34] ∧
    codesOf (validateMultiformat emojiPushDraft ()).violations = ["PUSH_TITLE_OVERLIMIT"] ∧
    errCount (validateMultiformat emojiPushDraft ()).violations = 1 := by
  refine ⟨by decide, by decide, by decide, by decide, by decide⟩

/-- C8 (amended): the email validator counts Unicode code points
    (Array.from), not raw UTF-16 code units, and an over-limit field yields
    exactly one ERROR whose message and suggested fix name the overage (a
    90-character field against a 75-character limit reports "90 > 75" and a
    15-character reduction); the multiformat validator's length bounds count
    raw UTF-16 code units (String.length) instead. -/
theorem claim_C8_length_counting (text : List Char) (limit : Nat)
    (loc sectionName : String) (idx : Nat) (v : MVariant) :
    (text ≠ [] → ((checkCharLimit text limit loc).length = 1 ↔ cpLen text > limit)) ∧
    (checkCharLimit (List.replicate 90 'а') 75 "preheader" =
      [{ code := "CHAR_LIMIT_EXCEEDED", severity := .ERROR,
         message := "Превышен лимит символов: 90 > 75",
         location := "preheader", evidence := ⟨List.replicate 90 'а'⟩,
         suggestedFix := some "Сократите на 15 символов" }]) ∧
    (jsTruthy v.title = true →
      (countCode "PUSH_TITLE_OVERLIMIT" (pushLimitDelta sectionName idx v).1 = 1 ↔
        utf16Len (jsGet v.title) > 32)) := by
  refine ⟨fun h => ?_, by decide, fun ht => ?_⟩
  · unfold checkCharLimit
    rw [if_neg (by simpa using h)]
    split_ifs with h2 <;> simp_all [cpLen]
  · unfold pushLimitDelta dAdd
    simp only [ht, Bool.true_and]
    by_cases h2 : utf16Len (jsGet v.title) > 32 <;>
      by_cases h3 : jsTruthy v.subtitle && decide (utf16Len (jsGet v.subtitle) > 60) <;>
        simp [h2, h3, countCode_append, countCode, List.filter]

/-- Witness for C8: the amended theorem applied to a 90-character field
    against the 75 limit and a 33-ASCII-character push title against the
    32 limit. -/
theorem claim_C8_witness :
    ((checkCharLimit (List.replicate 90 'а') 75 "preheader").length = 1 ↔
      cpLen (List.replicate 90 'а') > 75) ∧
    (countCode "PUSH_TITLE_OVERLIMIT"
        (pushLimitDelta "push_announce" 0
          { number := 1, title := some (List.replicate 33 'a') }).1 = 1 ↔
      utf16Len (jsGet (some (List.replicate 33 'a'))) > 32) :=
  ⟨(claim_C8_length_counting (List.replicate 90 'а') 75 "preheader" "push_announce" 0
      { number := 1 }).1 (by decide),
   (claim_C8_length_counting [] 0 "x" "push_announce" 0
      { number := 1, title := some (List.replicate 33 'a') }).2.2 (by decide)⟩

end SW

namespace SW

/-! ### Surgical replacement frame lemmas -/

theorem getD_drop {α : Type} (d : α) : ∀ (l : List α) (n m : Nat),
    (l.drop n).getD m d = l.getD (n + m) d := by
  intro l
  induction l with
  | nil => intro n m; simp
  | cons a t ih =>
    intro n m
    cases n with
    | zero => simp
    | succ n' =>
      simp only [List.drop_succ_cons]
      rw [ih n' m]
      simp [Nat.succ_add]

theorem firstMatchIdx_some_spec (test : List Char → Bool) :
    ∀ (ls : List (List Char)) (i j : Nat), firstMatchIdx test i ls = some j →
      i ≤ j ∧ j - i < ls.length ∧ test (trimJS (ls.getD (j - i) [])) = true ∧
      ∀ k < j - i, test (trimJS (ls.getD k [])) = false := by
  intro ls
  induction ls with
  | nil => intro i j h; simp [firstMatchIdx] at h
  | cons l rest ih =>
    intro i j h
    rw [firstMatchIdx] at h
    split_ifs at h with ht
    · obtain rfl : j = i := by simpa using h.symm
      refine ⟨le_refl _, by simp, by simpa, by omega⟩
    · obtain ⟨hle, hlt, htest, hmin⟩ := ih (i + 1) j h
      have hij : i + 1 ≤ j := hle
      refine ⟨by omega, by simp; omega, ?_, ?_⟩
      · have : j - i = (j - (i + 1)) + 1 := by omega
        rw [this]
        simpa using htest
      · intro k hk
        cases k with
        | zero => simpa using ht
        | succ k' =>
          have : k' < j - (i + 1) := by omega
          have := hmin k' this
          simpa using this

theorem firstMatchIdx_none_spec (test : List Char → Bool) :
    ∀ (ls : List (List Char)) (i : Nat), firstMatchIdx test i ls = none →
      ∀ k < ls.length, test (trimJS (ls.getD k [])) = false := by
  intro ls
  induction ls with
  | nil => intro i _ k hk; simp at hk
  | cons l rest ih =>
    intro i h k hk
    rw [firstMatchIdx] at h
    split_ifs at h with ht
    cases k with
    | zero => simpa using ht
    | succ k' =>
      have := ih (i + 1) h k' (by simpa using hk)
      simpa using this

/-- C6: if the field's header line cannot be located (or the field is
    unknown), replacement returns the input unchanged; when it is located,
    the output is exactly the lines before the span, the new content, one
    separating blank line, and the lines from the span's end on — all text
    outside the span byte-identical — where the span runs from the first
    line matching the field's header pattern to the line preceding the next
    recognized section header, or to the end of the document. -/
theorem claim_C6_replace_field_frame (output newContent : List Char) (fieldName : String) :
    (replaceBounds fieldName (splitNL output) = none →
      replaceField output fieldName newContent = output) ∧
    (∀ s e, replaceBounds fieldName (splitNL output) = some (s, e) →
      replaceField output fieldName newContent =
        joinNL ((splitNL output).take s ++ newContent :: [] :: (splitNL output).drop e) ∧
      s < (splitNL output).length ∧ s < e ∧ e ≤ (splitNL output).length ∧
      (∃ p, fieldPattern fieldName = some p ∧
        fieldTest p (trimJS ((splitNL output).getD s [])) = true ∧
        ∀ k < s, fieldTest p (trimJS ((splitNL output).getD k [])) = false) ∧
      (∀ k, s < k → k < e → isNewSectionTest (trimJS ((splitNL output).getD k [])) = false) ∧
      (e < (splitNL output).length → isNewSectionTest (trimJS ((splitNL output).getD e [])) = true)) := by
  constructor
  · intro h
    unfold replaceField
    simp [h]
  · intro s e h
    have heq : replaceField output fieldName newContent =
        joinNL ((splitNL output).take s ++ newContent :: [] :: (splitNL output).drop e) := by
      unfold replaceField
      simp [h]
    refine ⟨heq, ?_⟩
    rw [replaceBounds] at h
    rcases hp : fieldPattern fieldName with _ | p
    · simp only [hp] at h
      exact absurd h (by simp)
    · simp only [hp] at h
      rcases hs : firstMatchIdx (fieldTest p) 0 (splitNL output) with _ | s0
      · simp only [hs] at h
        exact absurd h (by simp)
      · simp only [hs] at h
        rcases he : firstMatchIdx isNewSectionTest (s0 + 1) ((splitNL output).drop (s0 + 1))
            with _ | e0
        · simp only [he] at h
          obtain ⟨rfl, rfl⟩ : s0 = s ∧ (splitNL output).length = e := by
            simpa [Prod.ext_iff] using h
          obtain ⟨-, hslt, hstest, hsmin⟩ := firstMatchIdx_some_spec _ _ 0 s0 hs
          simp only [Nat.sub_zero] at hslt hstest hsmin
          have hnone := firstMatchIdx_none_spec _ _ _ he
          refine ⟨hslt, hslt, le_refl _, ⟨p, rfl, hstest, hsmin⟩, ?_, ?_⟩
          · intro k hks hke
            have hk' : k - (s0 + 1) < ((splitNL output).drop (s0 + 1)).length := by
              simp; omega
            have hres := hnone (k - (s0 + 1)) hk'
            rw [getD_drop] at hres
            have harith : s0 + 1 + (k - (s0 + 1)) = k := by omega
            rwa [harith] at hres
          · intro hlt
            exact absurd hlt (lt_irrefl _)
        · simp only [he] at h
          obtain ⟨rfl, rfl⟩ : s0 = s ∧ e0 = e := by simpa [Prod.ext_iff] using h
          obtain ⟨-, hslt, hstest, hsmin⟩ := firstMatchIdx_some_spec _ _ 0 s0 hs
          simp only [Nat.sub_zero] at hslt hstest hsmin
          obtain ⟨hee, helt, hetest, hemin⟩ := firstMatchIdx_some_spec _ _ _ _ he
          have hdl : ((splitNL output).drop (s0 + 1)).length = (splitNL output).length - (s0 + 1) := by
            simp
          rw [hdl] at helt
          rw [getD_drop] at hetest
          have harith : s0 + 1 + (e0 - (s0 + 1)) = e0 := by omega
          rw [harith] at hetest
          refine ⟨hslt, by omega, by omega, ⟨p, rfl, hstest, hsmin⟩, ?_, fun _ => hetest⟩
          intro k hks hke
          have hk' : k - (s0 + 1) < e0 - (s0 + 1) := by omega
          have hres := hemin (k - (s0 + 1)) hk'
          rw [getD_drop] at hres
          have harith2 : s0 + 1 + (k - (s0 + 1)) = k := by omega
          rwa [harith2] at hres

/-- Witness for C6: the frame theorem applied to a concrete two-section
    document, for a field that is absent (no-op branch) and for the subject
    field whose span is lines 0-2 (replacement branch). -/
theorem claim_C6_witness :
    replaceField surgicalDoc "body" "x".data = surgicalDoc ∧
    replaceField surgicalDoc "subject" "NEW".data =
      joinNL ((splitNL surgicalDoc).take 0 ++ "NEW".data :: [] :: (splitNL surgicalDoc).drop 3) :=
  ⟨(claim_C6_replace_field_frame surgicalDoc "x".data "body").1 (by decide),
   ((claim_C6_replace_field_frame surgicalDoc "NEW".data "subject").2 0 3 (by decide)).1⟩

end SW
